import Mathlib

/-!
Courier service: delivery assignment, pricing, distance, tracking codes and lifecycle.

A shallow embedding of the controllers of the courier-service backend
(`controllers/deliveryController.js`, `controllers/courierController.js`,
`model/Courier.js`) together with theorems about them.

Conventions of the embedding.

* The persistent store (three MongoDB collections) is an explicit value of type
  `Store`; every handler is a function from the store before the request to the
  store after it and the outcome handed to the HTTP layer.
* `ObjectId`s are compared through their string form in the source
  (`delivery.user.toString() !== req.user.id`); here they are strings.
* Every `await`ed write may reject. The rejection is a boolean argument of the
  handler (`true`: the write is persisted, `false`: it rejects and persists
  nothing); `asyncHandler` forwards the rejection to `next`, which is the outcome
  `Outcome.thrown`.
* The `Delivery` and `User` models are not among the sources. What the handlers
  need of them is modelled from the specification and marked as such; an update
  that the `Delivery` model refuses is the outcome `Outcome.rejected`.
* JavaScript numbers are exact rationals plus `NaN`; rounding is not modelled.
  `calculateDistance` is read over the real numbers (`NaN` is `none`), and the
  values of `Math.random()` range over an ordered field with a floor function.
-/

namespace CourierService

/-! ## Data model -/

/-- Identifier of a stored document, in its string form. -/
abbrev ObjectId := String

/-- Modelled from the spec: the role carried by `req.user` (the `User` schema is not
among the sources); the controllers test it against the literals `admin`,
`courier` and `user`. -/
inductive Role where
  | user
  | courier
  | admin
  deriving DecidableEq, Repr

/-- Status enum of `CourierSchema`: `available`, `unavailable`, `on-delivery`. -/
inductive CourierStatus where
  | available
  | unavailable
  | onDelivery
  deriving DecidableEq, Repr

/-- Modelled from the spec: the status enum of the `Delivery` schema (the schema file
is not among the sources): `requested`, `accepted`, `picked_up`, `in_transit`,
`delivered`, `cancelled`. -/
inductive DeliveryStatus where
  | requested
  | accepted
  | pickedUp
  | inTransit
  | delivered
  | cancelled
  deriving DecidableEq, Repr

/-- A JSON value of a request body (objects and arrays are kept opaque). -/
inductive JSValue where
  | null
  | bool (b : Bool)
  | num (q : ℚ)
  | str (s : String)
  | object
  deriving DecidableEq

/-- JavaScript truthiness, as used by `!req.body.status`. -/
def JSValue.truthy : JSValue → Bool
  | .null => false
  | .bool b => b
  | .num q => decide (q ≠ 0)
  | .str s => decide (s ≠ "")
  | .object => true

/-- A parsed JSON request body: its own keys with their values. -/
abbrev Body := List (String × JSValue)

/-- The value of `req.user` set by the `protect` middleware. -/
structure ReqUser where
  id : ObjectId
  role : Role
  deriving DecidableEq

/-- Modelled from the spec: a `User` document, reduced to the fields the controllers
touch (the `User` schema is not among the sources). -/
structure User where
  id : ObjectId
  role : Role
  deriving DecidableEq

/-- A `Courier` document (`CourierSchema`), reduced to identity, linked user and
status; the other paths are never read or written by the modelled handlers. -/
structure Courier where
  id : ObjectId
  user : ObjectId
  status : CourierStatus
  deriving DecidableEq

/-- Modelled from the spec: a `Delivery` document (the schema file is not among the
sources): owning user, optional courier reference, status, and the remaining
paths (locations, package details, distance, price, tracking number) by name. -/
structure Delivery where
  id : ObjectId
  user : ObjectId
  courier : Option ObjectId
  status : DeliveryStatus
  details : List (String × JSValue)
  deriving DecidableEq

/-- The persistent store: the three collections. -/
structure Store where
  deliveries : List Delivery
  couriers : List Courier
  users : List User
  deriving DecidableEq

/-! ## Errors and outcomes -/

/-- The message templates passed to `new ErrorResponse(message, statusCode)`. -/
inductive ErrorMessage where
  /-- Message "No delivery with the id of ..." -/
  | noDelivery (id : ObjectId)
  /-- Message "No courier with the id of ..." -/
  | noCourier (id : ObjectId)
  /-- Message "User ... is not authorized to update this delivery" -/
  | notAuthorizedUpdate (userId : ObjectId)
  /-- Message "User ... is not authorized to delete this delivery" -/
  | notAuthorizedDelete (userId : ObjectId)
  /-- Message "User ... is not authorized to assign couriers to this delivery" -/
  | notAuthorizedAssign (userId : ObjectId)
  /-- Message "User ... is not authorized to delete this courier" -/
  | notAuthorizedDeleteCourier (userId : ObjectId)
  /-- Message "Courier ... is not available for delivery" -/
  | courierNotAvailable (courierId : ObjectId)
  /-- Message "Couriers can only update delivery status" -/
  | couriersOnlyStatus
  deriving DecidableEq

/-- An `ErrorResponse`: message and HTTP status code. -/
structure ErrorResponse where
  message : ErrorMessage
  statusCode : Nat
  deriving DecidableEq

/-- Modelled from the spec: the errors with which the `Delivery` model rejects an
update (models/Delivery is not among the sources): a value refused by the schema
(`InvalidPackage`, `InvalidCoordinate` and the like) and the `InvalidTransition`
of the lifecycle. -/
inductive ModelError where
  | ValidationError
  | InvalidTransition
  deriving DecidableEq, Repr

/-- What a handler hands to the HTTP layer. -/
inductive Outcome (α : Type) where
  /-- Source: `res.status(code).json(\x7b success: true, data \x7d)` -/
  | ok (statusCode : Nat) (data : α)
  /-- Source: `return next(new ErrorResponse(...))` -/
  | fail (e : ErrorResponse)
  /-- A rejected `await`, forwarded to `next` by `asyncHandler`. -/
  | thrown
  /-- An `await` rejected by the model with the given error, forwarded to `next` by
  `asyncHandler`. -/
  | rejected (e : ModelError)
  deriving DecidableEq

/-- The failure names of the specification's error taxonomy. -/
inductive Failure where
  | DeliveryNotFound
  | CourierNotFound
  | Forbidden
  | CourierUnavailable
  deriving DecidableEq, Repr

/-- The taxonomy name of an `ErrorResponse`: not-found messages by the record that
is absent, the ownership (401) and courier-role (400) refusals as `Forbidden`. -/
def ErrorResponse.failure (e : ErrorResponse) : Failure :=
  match e.message with
  | .noDelivery _ => .DeliveryNotFound
  | .noCourier _ => .CourierNotFound
  | .notAuthorizedUpdate _ => .Forbidden
  | .notAuthorizedDelete _ => .Forbidden
  | .notAuthorizedAssign _ => .Forbidden
  | .notAuthorizedDeleteCourier _ => .Forbidden
  | .courierNotAvailable _ => .CourierUnavailable
  | .couriersOnlyStatus => .Forbidden

/-! ## Storage primitives -/

/-- Call `Delivery.findById(id)`. -/
def Store.findDelivery (s : Store) (id : ObjectId) : Option Delivery :=
  s.deliveries.find? (fun d => decide (d.id = id))

/-- Call `Courier.findById(id)`. -/
def Store.findCourier (s : Store) (id : ObjectId) : Option Courier :=
  s.couriers.find? (fun c => decide (c.id = id))

/-- Call `User.findById(id)`. -/
def Store.findUser (s : Store) (id : ObjectId) : Option User :=
  s.users.find? (fun u => decide (u.id = id))

/-- Call `courier.save()`: the stored document with the courier's id is replaced. -/
def Store.saveCourier (s : Store) (c : Courier) : Store :=
  { s with couriers := s.couriers.map (fun x => if x.id = c.id then c else x) }

/-- Call `delivery.save()`: the stored document with the delivery's id is replaced. -/
def Store.saveDelivery (s : Store) (d : Delivery) : Store :=
  { s with deliveries := s.deliveries.map (fun x => if x.id = d.id then d else x) }

/-! ## `assignCourier` (deliveryController.js) -/

/-- Handler `exports.assignCourier`: `id` is `req.params.id`, `courierId` is
`req.body.courierId`; `courierSaveOk` and `deliverySaveOk` say whether
`courier.save()` and `delivery.save()` are persisted. -/
def assignCourier (s : Store) (reqUser : ReqUser) (id courierId : ObjectId)
    (courierSaveOk deliverySaveOk : Bool) : Store × Outcome Delivery :=
  match s.findDelivery id with
  | none => (s, .fail ⟨.noDelivery id, 404⟩)
  | some delivery =>
    if delivery.user ≠ reqUser.id ∧ reqUser.role ≠ Role.admin then
      (s, .fail ⟨.notAuthorizedAssign reqUser.id, 401⟩)
    else
      match s.findCourier courierId with
      | none => (s, .fail ⟨.noCourier courierId, 404⟩)
      | some courier =>
        if courier.status ≠ CourierStatus.available then
          (s, .fail ⟨.courierNotAvailable courier.id, 400⟩)
        else
          let delivery1 : Delivery :=
            { delivery with courier := some courierId, status := DeliveryStatus.accepted }
          let courier1 : Courier := { courier with status := CourierStatus.onDelivery }
          if courierSaveOk then
            let s1 := s.saveCourier courier1
            if deliverySaveOk then
              (s1.saveDelivery delivery1, .ok 200 delivery1)
            else (s1, .thrown)
          else (s, .thrown)

/-- The preconditions of the assignment in the order the specification lists them:
the first one that does not hold, if any. -/
def assignPreconditionFailure (s : Store) (reqUser : ReqUser) (id courierId : ObjectId) :
    Option Failure :=
  match s.findDelivery id with
  | none => some .DeliveryNotFound
  | some delivery =>
    if ¬ (delivery.user = reqUser.id ∨ reqUser.role = Role.admin) then some .Forbidden
    else
      match s.findCourier courierId with
      | none => some .CourierNotFound
      | some courier =>
        if courier.status = CourierStatus.available then none else some .CourierUnavailable

/-- The courier `courierId` is persisted with status `on-delivery`. -/
def Store.courierOnDelivery (s : Store) (courierId : ObjectId) : Bool :=
  match s.findCourier courierId with
  | some c => decide (c.status = CourierStatus.onDelivery)
  | none => false

/-- The delivery `id` is persisted as `accepted` with courier `courierId`. -/
def Store.deliveryAcceptedWith (s : Store) (id courierId : ObjectId) : Bool :=
  match s.findDelivery id with
  | some d => decide (d.status = DeliveryStatus.accepted ∧ d.courier = some courierId)
  | none => false

/-- Both halves of the assignment of `courierId` to `id` are persisted, or neither. -/
def Store.assignmentConsistent (s : Store) (id courierId : ObjectId) : Prop :=
  s.courierOnDelivery courierId = s.deliveryAcceptedWith id courierId

instance (s : Store) (id courierId : ObjectId) :
    Decidable (s.assignmentConsistent id courierId) := by
  unfold Store.assignmentConsistent; infer_instance

/-! ## `calculatePrice` (deliveryController.js) -/

/-- A JavaScript number: an exact rational (rounding is not modelled) or `NaN`. -/
inductive JSNum where
  | num (q : ℚ)
  | nan
  deriving DecidableEq

/-- JavaScript `*` on numbers. -/
def JSNum.mul : JSNum → JSNum → JSNum
  | .num a, .num b => .num (a * b)
  | _, _ => .nan

/-- JavaScript `+` on numbers. -/
def JSNum.add : JSNum → JSNum → JSNum
  | .num a, .num b => .num (a + b)
  | _, _ => .nan

/-- JavaScript `<=` on numbers: false as soon as one side is `NaN`. -/
def JSNum.le : JSNum → JSNum → Prop
  | .num a, .num b => a ≤ b
  | _, _ => False

/-- JavaScript `<` on numbers: false as soon as one side is `NaN`. -/
def JSNum.lt : JSNum → JSNum → Prop
  | .num a, .num b => a < b
  | _, _ => False

/-- The numeric value of a property read: a missing property is `undefined`, which
arithmetic turns into `NaN`. -/
def JSNum.ofProperty : Option ℚ → JSNum
  | some q => .num q
  | none => .nan

/-- The `dimensions` object of `packageDetails`: each of `length`, `width`, `height`
is a number or missing. -/
structure Dimensions where
  length : Option ℚ
  width : Option ℚ
  height : Option ℚ
  deriving DecidableEq

/-- A `dimensions` object with all three properties present. -/
def Dimensions.full (l w h : ℚ) : Dimensions := ⟨some l, some w, some h⟩

/-- Helper `calculatePrice(distance, weight, dimensions)`; `dimensions` is `none` when the
argument is `undefined`. -/
def calculatePrice (distance weight : JSNum) (dimensions : Option Dimensions) : JSNum :=
  let basePrice := JSNum.num 5
  let distancePrice := distance.mul (.num (3 / 2))
  let weightPrice := weight.mul (.num (1 / 5))
  let volumePrice :=
    match dimensions with
    | none => JSNum.num 0
    | some dims =>
      let volume := ((JSNum.ofProperty dims.length).mul (JSNum.ofProperty dims.width)).mul
        (JSNum.ofProperty dims.height)
      volume.mul (.num (1 / 10000))
  ((basePrice.add distancePrice).add weightPrice).add volumePrice

/-! ## `updateDelivery` and `deleteDelivery` (deliveryController.js) -/

/-- The string of a delivery status in the schema enum. -/
def DeliveryStatus.name : DeliveryStatus → String
  | .requested => "requested"
  | .accepted => "accepted"
  | .pickedUp => "picked_up"
  | .inTransit => "in_transit"
  | .delivered => "delivered"
  | .cancelled => "cancelled"

/-- The enum validator of the status path: the status a string names, if any. -/
def DeliveryStatus.ofName (n : String) : Option DeliveryStatus :=
  [DeliveryStatus.requested, .accepted, .pickedUp, .inTransit, .delivered, .cancelled].find?
    (fun st => decide (st.name = n))

/-- A property read `body[key]`: `none` is `undefined`. -/
def Body.property (body : Body) (key : String) : Option JSValue :=
  body.lookup key

/-- Truthiness of a property read; `undefined` is falsy. -/
def JSValue.truthyProperty : Option JSValue → Bool
  | some v => v.truthy
  | none => false

/-- The body is exactly the single field `status` with a non-empty (truthy) value. -/
def Body.isStatusOnly : Body → Bool
  | [(k, v)] => decide (k = "status") && v.truthy
  | _ => false

/-- Overwrite the path `key` of the remaining paths of a document. -/
def setPath (key : String) (v : JSValue) : List (String × JSValue) → List (String × JSValue)
  | [] => [(key, v)]
  | (k, w) :: rest => if k = key then (key, v) :: rest else (k, w) :: setPath key v rest

/-- Modelled from the spec: the terminal states of the lifecycle, `delivered` and
`cancelled` (models/Delivery is not among the sources). -/
def DeliveryStatus.isTerminal : DeliveryStatus → Bool
  | .delivered => true
  | .cancelled => true
  | _ => false

/-- Modelled from the spec: the next state in `requested → accepted → picked_up →
in_transit → delivered` (models/Delivery is not among the sources). -/
def DeliveryStatus.successor : DeliveryStatus → Option DeliveryStatus
  | .requested => some .accepted
  | .accepted => some .pickedUp
  | .pickedUp => some .inTransit
  | .inTransit => some .delivered
  | .delivered => none
  | .cancelled => none

/-- Modelled from the spec: the status changes a direct edit may make
(models/Delivery is not among the sources). From a non-terminal state the target
is `cancelled` or the next state, and `requested → accepted` is left to the
assignment. -/
def DeliveryStatus.directEditAllowed (current target : DeliveryStatus) : Bool :=
  !current.isTerminal &&
    (decide (target = DeliveryStatus.cancelled) || decide (current.successor = some target)) &&
    !(decide (current = DeliveryStatus.requested) && decide (target = DeliveryStatus.accepted))

/-- Modelled from the spec: the effect of one field of an update on a `Delivery` whose
stored status is `current`, under `runValidators` (models/Delivery is not among
the sources). `status` must name a value of the enum and, when it differs from the
stored status, be a change the lifecycle allows, else `InvalidTransition`; `user`
is a reference; `courier` is set only by the assignment and is refused here; any
other field overwrites the path of its name. -/
def Delivery.setField (current : DeliveryStatus) (d : Delivery) (key : String)
    (v : JSValue) : Except ModelError Delivery :=
  if key = "status" then
    match v with
    | .str n =>
      match DeliveryStatus.ofName n with
      | none => .error .ValidationError
      | some target =>
        if target = current then .ok { d with status := target }
        else if current.directEditAllowed target then .ok { d with status := target }
        else .error .InvalidTransition
    | _ => .error .ValidationError
  else if key = "user" then
    match v with
    | .str u => .ok { d with user := u }
    | _ => .error .ValidationError
  else if key = "courier" then .error .ValidationError
  else .ok { d with details := setPath key v d.details }

/-- Modelled from the spec: the fields of an update body applied in turn to a
`Delivery` whose stored status is `current` (models/Delivery is not among the
sources); the first rejected field rejects the update. -/
def Delivery.applyFields (current : DeliveryStatus) : Delivery → Body → Except ModelError Delivery
  | d, [] => .ok d
  | d, (k, v) :: rest =>
    match d.setField current k v with
    | .error e => .error e
    | .ok d1 => Delivery.applyFields current d1 rest

/-- Modelled from the spec: the document produced by `findByIdAndUpdate` with
`runValidators` for an update body (models/Delivery is not among the sources). A
terminal delivery accepts no edit: every non-empty update of it is rejected with
`InvalidTransition`; otherwise the fields are applied in turn. -/
def Delivery.applyUpdate (d : Delivery) (body : Body) : Except ModelError Delivery :=
  if d.status.isTerminal = true ∧ body ≠ [] then .error .InvalidTransition
  else Delivery.applyFields d.status d body

/-- The stored delivery `id` is replaced by `d`. -/
def Store.replaceDelivery (s : Store) (id : ObjectId) (d : Delivery) : Store :=
  { s with deliveries := s.deliveries.map (fun x => if x.id = id then d else x) }

/-- Handler `exports.updateDelivery`: `id` is `req.params.id`, `body` is `req.body`;
`Delivery.findByIdAndUpdate` is the model's `Delivery.applyUpdate` followed by the
write, and `writeOk` says whether that write is persisted. -/
def updateDelivery (s : Store) (reqUser : ReqUser) (id : ObjectId) (body : Body)
    (writeOk : Bool) : Store × Outcome Delivery :=
  match s.findDelivery id with
  | none => (s, .fail ⟨.noDelivery id, 404⟩)
  | some delivery =>
    if delivery.user ≠ reqUser.id ∧ reqUser.role ≠ Role.admin then
      (s, .fail ⟨.notAuthorizedUpdate reqUser.id, 401⟩)
    else if reqUser.role = Role.courier ∧
        (body.length ≠ 1 ∨ JSValue.truthyProperty (body.property "status") = false) then
      (s, .fail ⟨.couriersOnlyStatus, 400⟩)
    else
      match delivery.applyUpdate body with
      | .error e => (s, .rejected e)
      | .ok updated =>
        if writeOk then (s.replaceDelivery id updated, .ok 200 updated)
        else (s, .thrown)

/-- Handler `exports.deleteDelivery`: `removeOk` says whether `delivery.remove()` is
persisted. -/
def deleteDelivery (s : Store) (reqUser : ReqUser) (id : ObjectId) (removeOk : Bool) :
    Store × Outcome Unit :=
  match s.findDelivery id with
  | none => (s, .fail ⟨.noDelivery id, 404⟩)
  | some delivery =>
    if delivery.user ≠ reqUser.id ∧ reqUser.role ≠ Role.admin then
      (s, .fail ⟨.notAuthorizedDelete reqUser.id, 401⟩)
    else if removeOk then
      ({ s with deliveries := s.deliveries.filter (fun x => decide (x.id ≠ delivery.id)) },
        .ok 200 ())
    else (s, .thrown)

/-! ## `deleteCourier` (courierController.js) and the cascade hook (Courier.js) -/

/-- Hook `CourierSchema.pre('remove')`: `deleteMany(\x7b courier: this._id \x7d)` on the
deliveries. -/
def Courier.preRemove (c : Courier) (s : Store) : Store :=
  { s with deliveries := s.deliveries.filter (fun d => decide (d.courier ≠ some c.id)) }

/-- Call `courier.remove()` after its hook: the courier document is deleted. -/
def Courier.removeDocument (c : Courier) (s : Store) : Store :=
  { s with couriers := s.couriers.filter (fun x => decide (x.id ≠ c.id)) }

/-- Call `User.findByIdAndUpdate(userId, \x7b role \x7d)`. -/
def Store.setUserRole (s : Store) (userId : ObjectId) (role : Role) : Store :=
  { s with users := s.users.map (fun u => if u.id = userId then { u with role := role } else u) }

/-- Handler `exports.deleteCourier`: `id` is `req.params.id`; `cascadeOk`, `removeOk` and
`roleOk` say whether the hook's `deleteMany`, the removal of the courier and the
update of the user's role are persisted. -/
def deleteCourier (s : Store) (reqUser : ReqUser) (id : ObjectId)
    (cascadeOk removeOk roleOk : Bool) : Store × Outcome Unit :=
  match s.findCourier id with
  | none => (s, .fail ⟨.noCourier id, 404⟩)
  | some courier =>
    if courier.user ≠ reqUser.id ∧ reqUser.role ≠ Role.admin then
      (s, .fail ⟨.notAuthorizedDeleteCourier reqUser.id, 401⟩)
    else if cascadeOk then
      let s1 := courier.preRemove s
      if removeOk then
        let s2 := courier.removeDocument s1
        if roleOk then (s2.setUserRole reqUser.id Role.user, .ok 200 ())
        else (s2, .thrown)
      else (s1, .thrown)
    else (s, .thrown)

/-! ## `calculateDistance` (deliveryController.js), over the real numbers -/

/-- Function `Math.sqrt` over the reals; `none` is the `NaN` of a negative argument. -/
noncomputable def mathSqrt (x : ℝ) : Option ℝ :=
  if 0 ≤ x then some (Real.sqrt x) else none

/-- Function `Math.atan2(y, x)` over the reals: the angle of the point `(x, y)`, in
`(-π, π]`, and `0` at the origin. -/
noncomputable def mathAtan2 (y x : ℝ) : ℝ := Complex.arg ⟨x, y⟩

/-- Helper `calculateDistance(point1, point2)` on `[longitude, latitude]` pairs in
degrees; `none` is `NaN`. -/
noncomputable def calculateDistance (point1 point2 : ℝ × ℝ) : Option ℝ :=
  let (lon1, lat1) := point1
  let (lon2, lat2) := point2
  let R : ℝ := 6371
  let dLat := (lat2 - lat1) * (Real.pi / 180)
  let dLon := (lon2 - lon1) * (Real.pi / 180)
  let a :=
    Real.sin (dLat / 2) * Real.sin (dLat / 2) +
      Real.cos (lat1 * (Real.pi / 180)) *
        Real.cos (lat2 * (Real.pi / 180)) *
        Real.sin (dLon / 2) *
        Real.sin (dLon / 2)
  match mathSqrt a, mathSqrt (1 - a) with
  | some y, some x =>
    let c := 2 * mathAtan2 y x
    let distance := R * c
    some distance
  | _, _ => none

/-- The intermediate value `a` of `calculateDistance`. -/
noncomputable def haversineA (point1 point2 : ℝ × ℝ) : ℝ :=
  Real.sin ((point2.2 - point1.2) * (Real.pi / 180) / 2) *
      Real.sin ((point2.2 - point1.2) * (Real.pi / 180) / 2) +
    Real.cos (point1.2 * (Real.pi / 180)) * Real.cos (point2.2 * (Real.pi / 180)) *
      Real.sin ((point2.1 - point1.1) * (Real.pi / 180) / 2) *
      Real.sin ((point2.1 - point1.1) * (Real.pi / 180) / 2)

/-- A valid point: longitude in `[-180, 180]`, latitude in `[-90, 90]`. -/
def validPoint (p : ℝ × ℝ) : Prop :=
  -180 ≤ p.1 ∧ p.1 ≤ 180 ∧ -90 ≤ p.2 ∧ p.2 ≤ 90

/-! ## `generateTrackingNumber` (deliveryController.js) -/

/-- The alphabet `chars` of `generateTrackingNumber`. -/
def chars : String := "ABCDEFGHIJKLMNOPQRSTUVWXYZ0123456789"

/-- Method `s.charAt(index)` for an integral index: the one-character string at that
position, the empty string outside the string. -/
def charAt (s : String) (index : ℤ) : String :=
  if 0 ≤ index then
    match s.data[index.toNat]? with
    | some c => String.singleton c
    | none => ""
  else ""

/-- Helper `generateTrackingNumber()`; `random i` is the value returned by the call
of `Math.random()` in iteration `i` of the loop. -/
def generateTrackingNumber {α : Type} [LinearOrderedField α] [FloorRing α]
    (random : ℕ → α) : String :=
  (List.range 12).foldl
    (fun result i => result ++ charAt chars ⌊random i * (chars.length : α)⌋) ""

/-- The character class `[A-Z0-9]`. -/
def isTrackingChar (c : Char) : Prop :=
  ('A' ≤ c ∧ c ≤ 'Z') ∨ ('0' ≤ c ∧ c ≤ '9')

instance : DecidablePred isTrackingChar := fun c => by
  unfold isTrackingChar; infer_instance

/-- A random value that makes `generateTrackingNumber` select the character `c` of
the alphabet: its index divided by 36. -/
def randomFor (α : Type) [LinearOrderedField α] [FloorRing α] (c : Char) : α :=
  (chars.data.indexOf c : α) / 36

/-! ### Example stores -/

/-- A small store: one requested delivery of user `u1`, one available courier. -/
def exampleStore : Store :=
  { deliveries := [⟨"d1", "u1", none, .requested, []⟩]
    couriers := [⟨"c1", "u2", .available⟩]
    users := [⟨"u1", .user⟩, ⟨"u2", .courier⟩, ⟨"u3", .admin⟩] }

/-- The same store with the courier `unavailable`. -/
def busyStore : Store :=
  { deliveries := [⟨"d1", "u1", none, .requested, []⟩]
    couriers := [⟨"c1", "u2", .unavailable⟩]
    users := [⟨"u1", .user⟩, ⟨"u2", .courier⟩, ⟨"u3", .admin⟩] }

/-- A store in flight: delivery `d1` of user `u1` is accepted by courier `c1`
(user `u2`), delivery `d2` of user `u1` is delivered by `c1`, delivery `d3` of user
`u4` is still requested, and delivery `d4` was requested by the courier's own user
`u2`. -/
def busyFleet : Store :=
  { deliveries := [⟨"d1", "u1", some "c1", .accepted, []⟩,
                   ⟨"d2", "u1", some "c1", .delivered, []⟩,
                   ⟨"d3", "u4", none, .requested, []⟩,
                   ⟨"d4", "u2", none, .requested, []⟩]
    couriers := [⟨"c1", "u2", .onDelivery⟩]
    users := [⟨"u1", .user⟩, ⟨"u2", .courier⟩, ⟨"u3", .admin⟩, ⟨"u4", .user⟩] }

example : (updateDelivery busyFleet ⟨"u1", .user⟩ "d1" [("status", .str "picked_up")] true).2
    = .ok 200 ⟨"d1", "u1", some "c1", .pickedUp, []⟩ := by decide

example : updateDelivery busyFleet ⟨"u1", .user⟩ "d2" [("status", .str "requested")] true
    = (busyFleet, .rejected .InvalidTransition) := by decide

example : updateDelivery busyFleet ⟨"u4", .user⟩ "d3" [("status", .str "accepted")] true
    = (busyFleet, .rejected .InvalidTransition) := by decide

example : (updateDelivery busyFleet ⟨"u2", .courier⟩ "d1" [("status", .str "picked_up")] true)
    = (busyFleet, .fail ⟨.notAuthorizedUpdate "u2", 401⟩) := by decide

example : (deleteCourier busyFleet ⟨"u2", .courier⟩ "c1" true true true).1
    = { deliveries := [⟨"d3", "u4", none, .requested, []⟩, ⟨"d4", "u2", none, .requested, []⟩]
        couriers := []
        users := [⟨"u1", .user⟩, ⟨"u2", .user⟩, ⟨"u3", .admin⟩, ⟨"u4", .user⟩] } := by decide

/-! ## Lemmas on the storage primitives -/

theorem find_map_replace {α : Type} (key : α → ObjectId) (k : ObjectId) (b : α)
    (hb : key b = k) (l : List α) (a : α)
    (h : l.find? (fun x => decide (key x = k)) = some a) :
    (l.map (fun x => if key x = k then b else x)).find? (fun x => decide (key x = k))
      = some b := by
  induction l with
  | nil => simp at h
  | cons x xs ih =>
    by_cases hx : key x = k
    · simp [List.find?, hx, hb]
    · simp only [List.find?, hx, decide_False] at h
      simp [List.find?, hx, ih h]

theorem find_some_key {α : Type} (key : α → ObjectId) (k : ObjectId) (l : List α) (a : α)
    (h : l.find? (fun x => decide (key x = k)) = some a) : key a = k := by
  have := List.find?_some h
  simpa using this

theorem findDelivery_id {s : Store} {id : ObjectId} {d : Delivery}
    (h : s.findDelivery id = some d) : d.id = id :=
  find_some_key (fun x : Delivery => x.id) id s.deliveries d h

theorem findCourier_id {s : Store} {id : ObjectId} {c : Courier}
    (h : s.findCourier id = some c) : c.id = id :=
  find_some_key (fun x : Courier => x.id) id s.couriers c h

theorem findCourier_saveCourier {s : Store} {id : ObjectId} {c c1 : Courier}
    (h : s.findCourier id = some c) (h1 : c1.id = id) :
    (s.saveCourier c1).findCourier id = some c1 := by
  unfold Store.findCourier Store.saveCourier
  simp only [h1]
  exact find_map_replace (fun x : Courier => x.id) id c1 h1 s.couriers c h

theorem findDelivery_saveDelivery {s : Store} {id : ObjectId} {d d1 : Delivery}
    (h : s.findDelivery id = some d) (h1 : d1.id = id) :
    (s.saveDelivery d1).findDelivery id = some d1 := by
  unfold Store.findDelivery Store.saveDelivery
  simp only [h1]
  exact find_map_replace (fun x : Delivery => x.id) id d1 h1 s.deliveries d h

theorem findDelivery_saveCourier (s : Store) (c : Courier) (id : ObjectId) :
    (s.saveCourier c).findDelivery id = s.findDelivery id := rfl

theorem findCourier_saveDelivery (s : Store) (d : Delivery) (id : ObjectId) :
    (s.saveDelivery d).findCourier id = s.findCourier id := rfl

/-! ## Theorems on `assignCourier` -/

/-- C1: when the delivery exists, the actor is its owning user or an admin, the courier
exists with status `available` and both writes are persisted, `assignCourier` answers
200 with the updated delivery, and in the resulting store the delivery carries the
given courier and status `accepted` while the courier has status `on-delivery`. -/
theorem assignCourier_success (s : Store) (reqUser : ReqUser) (id courierId : ObjectId)
    (delivery : Delivery) (courier : Courier)
    (hd : s.findDelivery id = some delivery)
    (hauth : delivery.user = reqUser.id ∨ reqUser.role = Role.admin)
    (hc : s.findCourier courierId = some courier)
    (hav : courier.status = CourierStatus.available) :
    ∃ s1 d1 c1,
      assignCourier s reqUser id courierId true true = (s1, Outcome.ok 200 d1) ∧
      s1.findDelivery id = some d1 ∧
      d1 = { delivery with courier := some courierId, status := DeliveryStatus.accepted } ∧
      d1.courier = some courierId ∧ d1.status = DeliveryStatus.accepted ∧
      s1.findCourier courierId = some c1 ∧
      c1 = { courier with status := CourierStatus.onDelivery } ∧
      c1.status = CourierStatus.onDelivery := by
  have hnot : ¬ (delivery.user ≠ reqUser.id ∧ reqUser.role ≠ Role.admin) := by
    rintro ⟨h1, h2⟩
    rcases hauth with h | h
    · exact h1 h
    · exact h2 h
  refine ⟨(s.saveCourier { courier with status := CourierStatus.onDelivery }).saveDelivery
      { delivery with courier := some courierId, status := DeliveryStatus.accepted },
    { delivery with courier := some courierId, status := DeliveryStatus.accepted },
    { courier with status := CourierStatus.onDelivery }, ?_, ?_, rfl, rfl, rfl, ?_, rfl, rfl⟩
  · simp only [assignCourier, hd, hc, hnot, hav, if_false, if_true, ne_eq, not_true_eq_false]
  · exact findDelivery_saveDelivery
      (by rw [findDelivery_saveCourier]; exact hd) (by simpa using findDelivery_id hd)
  · rw [findCourier_saveDelivery]
    exact findCourier_saveCourier hc (by simpa using findCourier_id hc)

/-- Witness of `assignCourier_success`: the owner assigns the available courier `c1`
to the requested delivery `d1`. -/
theorem assignCourier_success_witness :
    ∃ s1 d1 c1,
      assignCourier exampleStore ⟨"u1", Role.user⟩ "d1" "c1" true true
        = (s1, Outcome.ok 200 d1) ∧
      s1.findDelivery "d1" = some d1 ∧
      d1 = { (⟨"d1", "u1", none, .requested, []⟩ : Delivery) with
              courier := some "c1", status := DeliveryStatus.accepted } ∧
      d1.courier = some "c1" ∧ d1.status = DeliveryStatus.accepted ∧
      s1.findCourier "c1" = some c1 ∧
      c1 = { (⟨"c1", "u2", .available⟩ : Courier) with status := CourierStatus.onDelivery } ∧
      c1.status = CourierStatus.onDelivery :=
  assignCourier_success exampleStore ⟨"u1", Role.user⟩ "d1" "c1"
    ⟨"d1", "u1", none, .requested, []⟩ ⟨"c1", "u2", .available⟩
    (by decide) (Or.inl (by decide)) (by decide) (by decide)

/-- C2: `assignCourier` reports the first precondition that fails, in the order
delivery exists, actor is owner or admin, courier exists, courier is `available`:
whenever one of them fails the outcome is the error of the first failing one
(`DeliveryNotFound`, `Forbidden`, `CourierNotFound`, `CourierUnavailable`, four
distinct failures) and the store is returned as it was; when none fails the outcome
is not an `ErrorResponse`. -/
theorem assignCourier_first_failure (s : Store) (reqUser : ReqUser)
    (id courierId : ObjectId) (courierSaveOk deliverySaveOk : Bool) :
    match assignPreconditionFailure s reqUser id courierId with
    | some f =>
      ∃ e, assignCourier s reqUser id courierId courierSaveOk deliverySaveOk
          = (s, Outcome.fail e) ∧ e.failure = f
    | none =>
      ∀ e, (assignCourier s reqUser id courierId courierSaveOk deliverySaveOk).2
        ≠ Outcome.fail e := by
  unfold assignPreconditionFailure assignCourier
  cases hd : s.findDelivery id with
  | none => exact ⟨_, rfl, rfl⟩
  | some delivery =>
    by_cases hauth : delivery.user = reqUser.id ∨ reqUser.role = Role.admin
    · have hnot : ¬ (delivery.user ≠ reqUser.id ∧ reqUser.role ≠ Role.admin) := by
        rintro ⟨h1, h2⟩
        rcases hauth with h | h
        · exact h1 h
        · exact h2 h
      simp only [if_neg hnot, if_neg (not_not_intro hauth)]
      cases hc : s.findCourier courierId with
      | none => exact ⟨_, rfl, rfl⟩
      | some courier =>
        by_cases hav : courier.status = CourierStatus.available
        · simp only [if_pos hav, if_neg (not_not_intro hav)]
          intro e
          cases courierSaveOk <;> cases deliverySaveOk <;> simp
        · simp only [if_neg hav, if_pos hav]
          exact ⟨_, rfl, rfl⟩
    · have hyes : delivery.user ≠ reqUser.id ∧ reqUser.role ≠ Role.admin := by
        constructor
        · intro h; exact hauth (Or.inl h)
        · intro h; exact hauth (Or.inr h)
      simp only [if_pos hyes, if_pos hauth]
      exact ⟨_, rfl, rfl⟩

/-- C3: assigning an existing courier whose status is not `available` to an existing
delivery, by an authorised actor, fails with `CourierUnavailable` (status 400) and
returns the store unchanged, so the delivery and the courier read back as before. -/
theorem assignCourier_unavailable (s : Store) (reqUser : ReqUser)
    (id courierId : ObjectId) (delivery : Delivery) (courier : Courier)
    (courierSaveOk deliverySaveOk : Bool)
    (hd : s.findDelivery id = some delivery)
    (hauth : delivery.user = reqUser.id ∨ reqUser.role = Role.admin)
    (hc : s.findCourier courierId = some courier)
    (hst : courier.status = CourierStatus.unavailable ∨
      courier.status = CourierStatus.onDelivery) :
    ∃ e, assignCourier s reqUser id courierId courierSaveOk deliverySaveOk
        = (s, Outcome.fail e) ∧
      e = ⟨ErrorMessage.courierNotAvailable courier.id, 400⟩ ∧
      e.failure = Failure.CourierUnavailable ∧
      (assignCourier s reqUser id courierId courierSaveOk deliverySaveOk).1.findDelivery id
        = some delivery ∧
      (assignCourier s reqUser id courierId courierSaveOk deliverySaveOk).1.findCourier
        courierId = some courier := by
  have hnot : ¬ (delivery.user ≠ reqUser.id ∧ reqUser.role ≠ Role.admin) := by
    rintro ⟨h1, h2⟩
    rcases hauth with h | h
    · exact h1 h
    · exact h2 h
  have hav : courier.status ≠ CourierStatus.available := by
    rcases hst with h | h <;> simp [h]
  have hrun : assignCourier s reqUser id courierId courierSaveOk deliverySaveOk
      = (s, Outcome.fail ⟨ErrorMessage.courierNotAvailable courier.id, 400⟩) := by
    simp only [assignCourier, hd, hc, hnot, hav, if_false, if_true, ne_eq,
      not_false_eq_true]
  exact ⟨_, hrun, rfl, rfl, by rw [hrun]; exact hd, by rw [hrun]; exact hc⟩

/-- Witness of `assignCourier_unavailable`: the owner names the `unavailable`
courier `c1`. -/
theorem assignCourier_unavailable_witness :
    ∃ e, assignCourier busyStore ⟨"u1", Role.user⟩ "d1" "c1" true true
        = (busyStore, Outcome.fail e) ∧
      e = ⟨ErrorMessage.courierNotAvailable "c1", 400⟩ ∧
      e.failure = Failure.CourierUnavailable ∧
      (assignCourier busyStore ⟨"u1", Role.user⟩ "d1" "c1" true true).1.findDelivery "d1"
        = some ⟨"d1", "u1", none, .requested, []⟩ ∧
      (assignCourier busyStore ⟨"u1", Role.user⟩ "d1" "c1" true true).1.findCourier "c1"
        = some ⟨"c1", "u2", .unavailable⟩ :=
  assignCourier_unavailable busyStore ⟨"u1", Role.user⟩ "d1" "c1"
    ⟨"d1", "u1", none, .requested, []⟩ ⟨"c1", "u2", .unavailable⟩ true true
    (by decide) (Or.inl (by decide)) (by decide) (Or.inl (by decide))

/-- C4, counterexample: with the four preconditions met, `courier.save()` persisted
and `delivery.save()` rejected, the call ends in a thrown error while the store
holds the courier as `on-delivery` and the delivery still `requested` without
courier: the persisted store is not consistent. -/
theorem assignCourier_partial_write :
    assignPreconditionFailure exampleStore ⟨"u1", Role.user⟩ "d1" "c1" = none ∧
    (assignCourier exampleStore ⟨"u1", Role.user⟩ "d1" "c1" true false).2 = Outcome.thrown ∧
    (assignCourier exampleStore ⟨"u1", Role.user⟩ "d1" "c1" true false).1.findCourier "c1"
      = some ⟨"c1", "u2", .onDelivery⟩ ∧
    (assignCourier exampleStore ⟨"u1", Role.user⟩ "d1" "c1" true false).1.findDelivery "d1"
      = some ⟨"d1", "u1", none, .requested, []⟩ ∧
    ¬ (assignCourier exampleStore ⟨"u1", Role.user⟩ "d1" "c1" true false).1.assignmentConsistent
      "d1" "c1" := by
  decide

/-- C4, amended: with the four preconditions met, a failing write is never reported
as success (the outcome is the thrown error). If `courier.save()` fails the store
is unchanged. If `courier.save()` is persisted and `delivery.save()` fails, nothing
is rolled back: deliveries and users are unchanged, the delivery reads back as
before, and the courier is persisted with status `on-delivery`. -/
theorem assignCourier_write_failure (s : Store) (reqUser : ReqUser)
    (id courierId : ObjectId) (delivery : Delivery) (courier : Courier)
    (courierSaveOk deliverySaveOk : Bool)
    (hd : s.findDelivery id = some delivery)
    (hauth : delivery.user = reqUser.id ∨ reqUser.role = Role.admin)
    (hc : s.findCourier courierId = some courier)
    (hav : courier.status = CourierStatus.available)
    (hfail : courierSaveOk = false ∨ deliverySaveOk = false) :
    (assignCourier s reqUser id courierId courierSaveOk deliverySaveOk).2 = Outcome.thrown ∧
    (courierSaveOk = false →
      (assignCourier s reqUser id courierId courierSaveOk deliverySaveOk).1 = s) ∧
    (courierSaveOk = true →
      (assignCourier s reqUser id courierId courierSaveOk deliverySaveOk).1
          = s.saveCourier { courier with status := CourierStatus.onDelivery } ∧
      (assignCourier s reqUser id courierId courierSaveOk deliverySaveOk).1.deliveries
          = s.deliveries ∧
      (assignCourier s reqUser id courierId courierSaveOk deliverySaveOk).1.users
          = s.users ∧
      (assignCourier s reqUser id courierId courierSaveOk deliverySaveOk).1.findDelivery id
          = some delivery ∧
      (assignCourier s reqUser id courierId courierSaveOk deliverySaveOk).1.findCourier
          courierId = some { courier with status := CourierStatus.onDelivery }) := by
  have hnot : ¬ (delivery.user ≠ reqUser.id ∧ reqUser.role ≠ Role.admin) := by
    rintro ⟨h1, h2⟩
    rcases hauth with h | h
    · exact h1 h
    · exact h2 h
  cases courierSaveOk with
  | false =>
    have hrun : assignCourier s reqUser id courierId false deliverySaveOk
        = (s, Outcome.thrown) := by
      simp [assignCourier, hd, hc, hnot, hav]
    rw [hrun]
    simp
  | true =>
    have hdel : deliverySaveOk = false := by
      rcases hfail with h | h
      · cases h
      · exact h
    subst hdel
    have hrun : assignCourier s reqUser id courierId true false
        = (s.saveCourier { courier with status := CourierStatus.onDelivery },
            Outcome.thrown) := by
      simp [assignCourier, hd, hc, hnot, hav]
    rw [hrun]
    refine ⟨rfl, by simp, fun _ => ⟨rfl, rfl, rfl, hd, ?_⟩⟩
    exact findCourier_saveCourier hc (by simpa using findCourier_id hc)

/-- Witness of `assignCourier_write_failure`: `courier.save()` is persisted and
`delivery.save()` rejects. -/
theorem assignCourier_write_failure_witness :
    (assignCourier exampleStore ⟨"u1", Role.user⟩ "d1" "c1" true false).2 = Outcome.thrown ∧
    (true = false →
      (assignCourier exampleStore ⟨"u1", Role.user⟩ "d1" "c1" true false).1 = exampleStore) ∧
    (true = true →
      (assignCourier exampleStore ⟨"u1", Role.user⟩ "d1" "c1" true false).1
          = exampleStore.saveCourier
              { (⟨"c1", "u2", .available⟩ : Courier) with status := CourierStatus.onDelivery } ∧
      (assignCourier exampleStore ⟨"u1", Role.user⟩ "d1" "c1" true false).1.deliveries
          = exampleStore.deliveries ∧
      (assignCourier exampleStore ⟨"u1", Role.user⟩ "d1" "c1" true false).1.users
          = exampleStore.users ∧
      (assignCourier exampleStore ⟨"u1", Role.user⟩ "d1" "c1" true false).1.findDelivery "d1"
          = some ⟨"d1", "u1", none, .requested, []⟩ ∧
      (assignCourier exampleStore ⟨"u1", Role.user⟩ "d1" "c1" true false).1.findCourier "c1"
          = some { (⟨"c1", "u2", .available⟩ : Courier) with
                    status := CourierStatus.onDelivery }) :=
  assignCourier_write_failure exampleStore ⟨"u1", Role.user⟩ "d1" "c1"
    ⟨"d1", "u1", none, .requested, []⟩ ⟨"c1", "u2", .available⟩ true false
    (by decide) (Or.inl (by decide)) (by decide) (by decide) (Or.inr rfl)

/-! ## Theorems on `calculatePrice` -/

/-- Without a `dimensions` argument the price is `5 + d * 1.5 + w * 0.2`. -/
theorem calculatePrice_no_dimensions (d w : ℚ) :
    calculatePrice (.num d) (.num w) none = .num (5 + d * (3 / 2) + w * (1 / 5)) := by
  simp [calculatePrice, JSNum.mul, JSNum.add]

/-- With all three dimensions present the price is
`5 + d * 1.5 + w * 0.2 + length * width * height * 0.0001`. -/
theorem calculatePrice_full_dimensions (d w l wd h : ℚ) :
    calculatePrice (.num d) (.num w) (some (Dimensions.full l wd h))
      = .num (5 + d * (3 / 2) + w * (1 / 5) + l * wd * h * (1 / 10000)) := by
  simp [calculatePrice, JSNum.mul, JSNum.add, JSNum.ofProperty, Dimensions.full]

/-- The base price: `calculatePrice(0, 0, undefined)` is `5`. -/
theorem calculatePrice_base : calculatePrice (.num 0) (.num 0) none = .num 5 := by
  simp [calculatePrice, JSNum.mul, JSNum.add]

/-- C5, the failing input: for a `dimensions` object without `height` the volume
term is not zero but `NaN`, and so is the price, where the formula with a zero
volume term gives `5`. -/
theorem calculatePrice_missing_height :
    calculatePrice (.num 0) (.num 0) (some ⟨some 2, some 3, none⟩) = JSNum.nan ∧
    calculatePrice (.num 0) (.num 0) (some ⟨some 2, some 3, none⟩)
      ≠ JSNum.num (5 + 0 * (3 / 2) + 0 * (1 / 5) + 0 * (1 / 10000)) := by
  constructor
  · simp [calculatePrice, JSNum.mul, JSNum.add, JSNum.ofProperty]
  · simp [calculatePrice, JSNum.mul, JSNum.add, JSNum.ofProperty]

/-- Outside the accepted inputs the price is not monotone: `calculatePrice` itself
does not reject a negative dimension, and with width `-1` and height `1`, raising
the length from `1` to `2` lowers the price from `4.9999` to `4.9998`. -/
theorem calculatePrice_length_decreases :
    calculatePrice (.num 0) (.num 0) (some (Dimensions.full 1 (-1) 1)) = .num (49999 / 10000) ∧
    calculatePrice (.num 0) (.num 0) (some (Dimensions.full 2 (-1) 1)) = .num (49998 / 10000) ∧
    JSNum.lt (calculatePrice (.num 0) (.num 0) (some (Dimensions.full 2 (-1) 1)))
      (calculatePrice (.num 0) (.num 0) (some (Dimensions.full 1 (-1) 1))) := by
  refine ⟨?_, ?_, ?_⟩
  · rw [calculatePrice_full_dimensions]; norm_num
  · rw [calculatePrice_full_dimensions]; norm_num
  · rw [calculatePrice_full_dimensions, calculatePrice_full_dimensions]
    simp only [JSNum.lt]; norm_num

/-- Raising the distance never lowers the price, whatever the dimensions argument. -/
theorem calculatePrice_distance_not_lower (d d1 w : ℚ) (dims : Option Dimensions)
    (hd : d ≤ d1) :
    ¬ JSNum.lt (calculatePrice (.num d1) (.num w) dims)
      (calculatePrice (.num d) (.num w) dims) := by
  cases dims with
  | none =>
    rw [calculatePrice_no_dimensions, calculatePrice_no_dimensions]
    simp only [JSNum.lt]; linarith
  | some dm =>
    obtain ⟨a, b, c⟩ := dm
    cases a <;> cases b <;> cases c <;>
      simp [calculatePrice, JSNum.mul, JSNum.add, JSNum.ofProperty, JSNum.lt]
    linarith

/-- Raising the weight never lowers the price, whatever the dimensions argument. -/
theorem calculatePrice_weight_not_lower (d w w1 : ℚ) (dims : Option Dimensions)
    (hw : w ≤ w1) :
    ¬ JSNum.lt (calculatePrice (.num d) (.num w1) dims)
      (calculatePrice (.num d) (.num w) dims) := by
  cases dims with
  | none =>
    rw [calculatePrice_no_dimensions, calculatePrice_no_dimensions]
    simp only [JSNum.lt]; linarith
  | some dm =>
    obtain ⟨a, b, c⟩ := dm
    cases a <;> cases b <;> cases c <;>
      simp [calculatePrice, JSNum.mul, JSNum.add, JSNum.ofProperty, JSNum.lt]
    linarith

/-- C6: `calculatePrice` is non-decreasing in each input taken independently, on the
inputs the pricing contract accepts (numbers, the dimensions absent or complete,
no negative dimension). Raising the distance or the weight never lowers the price
(for every dimensions argument, and with absent or complete dimensions the new
price is at least the old one). Raising one of length, width, height, the other
inputs fixed, gives a price at least the old one as soon as the product of the
two dimensions held fixed is not negative, which is the case whenever they are
not negative; the dimension that is raised may have any sign. -/
theorem calculatePrice_monotone :
    (∀ (d d1 w : ℚ) (dims : Option Dimensions), d ≤ d1 →
      ¬ JSNum.lt (calculatePrice (.num d1) (.num w) dims)
        (calculatePrice (.num d) (.num w) dims)) ∧
    (∀ (d w w1 : ℚ) (dims : Option Dimensions), w ≤ w1 →
      ¬ JSNum.lt (calculatePrice (.num d) (.num w1) dims)
        (calculatePrice (.num d) (.num w) dims)) ∧
    (∀ d d1 w : ℚ, d ≤ d1 →
      JSNum.le (calculatePrice (.num d) (.num w) none)
        (calculatePrice (.num d1) (.num w) none)) ∧
    (∀ d w w1 : ℚ, w ≤ w1 →
      JSNum.le (calculatePrice (.num d) (.num w) none)
        (calculatePrice (.num d) (.num w1) none)) ∧
    (∀ d d1 w l wd h : ℚ, d ≤ d1 →
      JSNum.le (calculatePrice (.num d) (.num w) (some (Dimensions.full l wd h)))
        (calculatePrice (.num d1) (.num w) (some (Dimensions.full l wd h)))) ∧
    (∀ d w w1 l wd h : ℚ, w ≤ w1 →
      JSNum.le (calculatePrice (.num d) (.num w) (some (Dimensions.full l wd h)))
        (calculatePrice (.num d) (.num w1) (some (Dimensions.full l wd h)))) ∧
    (∀ d w l l1 wd h : ℚ, l ≤ l1 → 0 ≤ wd * h →
      JSNum.le (calculatePrice (.num d) (.num w) (some (Dimensions.full l wd h)))
        (calculatePrice (.num d) (.num w) (some (Dimensions.full l1 wd h)))) ∧
    (∀ d w l wd wd1 h : ℚ, wd ≤ wd1 → 0 ≤ l * h →
      JSNum.le (calculatePrice (.num d) (.num w) (some (Dimensions.full l wd h)))
        (calculatePrice (.num d) (.num w) (some (Dimensions.full l wd1 h)))) ∧
    (∀ d w l wd h h1 : ℚ, h ≤ h1 → 0 ≤ l * wd →
      JSNum.le (calculatePrice (.num d) (.num w) (some (Dimensions.full l wd h)))
        (calculatePrice (.num d) (.num w) (some (Dimensions.full l wd h1)))) := by
  refine ⟨calculatePrice_distance_not_lower, calculatePrice_weight_not_lower,
    ?_, ?_, ?_, ?_, ?_, ?_, ?_⟩
  · intro d d1 w hd
    rw [calculatePrice_no_dimensions, calculatePrice_no_dimensions]
    simp only [JSNum.le]; linarith
  · intro d w w1 hw
    rw [calculatePrice_no_dimensions, calculatePrice_no_dimensions]
    simp only [JSNum.le]; linarith
  · intro d d1 w l wd h hd
    rw [calculatePrice_full_dimensions, calculatePrice_full_dimensions]
    simp only [JSNum.le]; linarith
  · intro d w w1 l wd h hw
    rw [calculatePrice_full_dimensions, calculatePrice_full_dimensions]
    simp only [JSNum.le]; linarith
  · intro d w l l1 wd h hl hlen
    rw [calculatePrice_full_dimensions, calculatePrice_full_dimensions]
    simp only [JSNum.le]
    have : 0 ≤ (l1 - l) * (wd * h) := mul_nonneg (by linarith) hlen
    nlinarith
  · intro d w l wd wd1 h hwd hwid
    rw [calculatePrice_full_dimensions, calculatePrice_full_dimensions]
    simp only [JSNum.le]
    have : 0 ≤ (wd1 - wd) * (l * h) := mul_nonneg (by linarith) hwid
    nlinarith
  · intro d w l wd h h1 hh hhei
    rw [calculatePrice_full_dimensions, calculatePrice_full_dimensions]
    simp only [JSNum.le]
    have : 0 ≤ (h1 - h) * (l * wd) := mul_nonneg (by linarith) hhei
    nlinarith

/-- Witness of `calculatePrice_monotone`: distance and weight grow from `1` to `2`
without dimensions and with a `2 x 3 x 4` package, each dimension of that package
grows by one, and the length grows from `-1` to `0` with width and height `1`. -/
theorem calculatePrice_monotone_witness :
    ¬ JSNum.lt (calculatePrice (.num 2) (.num 1) none) (calculatePrice (.num 1) (.num 1) none) ∧
    ¬ JSNum.lt (calculatePrice (.num 1) (.num 2) none) (calculatePrice (.num 1) (.num 1) none) ∧
    JSNum.le (calculatePrice (.num 1) (.num 1) none) (calculatePrice (.num 2) (.num 1) none) ∧
    JSNum.le (calculatePrice (.num 1) (.num 1) none) (calculatePrice (.num 1) (.num 2) none) ∧
    JSNum.le (calculatePrice (.num 1) (.num 1) (some (Dimensions.full 2 3 4)))
      (calculatePrice (.num 2) (.num 1) (some (Dimensions.full 2 3 4))) ∧
    JSNum.le (calculatePrice (.num 1) (.num 1) (some (Dimensions.full 2 3 4)))
      (calculatePrice (.num 1) (.num 2) (some (Dimensions.full 2 3 4))) ∧
    JSNum.le (calculatePrice (.num 1) (.num 1) (some (Dimensions.full 2 3 4)))
      (calculatePrice (.num 1) (.num 1) (some (Dimensions.full 3 3 4))) ∧
    JSNum.le (calculatePrice (.num 1) (.num 1) (some (Dimensions.full 2 3 4)))
      (calculatePrice (.num 1) (.num 1) (some (Dimensions.full 2 4 4))) ∧
    JSNum.le (calculatePrice (.num 1) (.num 1) (some (Dimensions.full 2 3 4)))
      (calculatePrice (.num 1) (.num 1) (some (Dimensions.full 2 3 5))) ∧
    JSNum.le (calculatePrice (.num 1) (.num 1) (some (Dimensions.full (-1) 1 1)))
      (calculatePrice (.num 1) (.num 1) (some (Dimensions.full 0 1 1))) :=
  ⟨calculatePrice_monotone.1 1 2 1 none (by norm_num),
    calculatePrice_monotone.2.1 1 1 2 none (by norm_num),
    calculatePrice_monotone.2.2.1 1 2 1 (by norm_num),
    calculatePrice_monotone.2.2.2.1 1 1 2 (by norm_num),
    calculatePrice_monotone.2.2.2.2.1 1 2 1 2 3 4 (by norm_num),
    calculatePrice_monotone.2.2.2.2.2.1 1 1 2 2 3 4 (by norm_num),
    calculatePrice_monotone.2.2.2.2.2.2.1 1 1 2 3 3 4 (by norm_num) (by norm_num),
    calculatePrice_monotone.2.2.2.2.2.2.2.1 1 1 2 3 4 4 (by norm_num) (by norm_num),
    calculatePrice_monotone.2.2.2.2.2.2.2.2 1 1 2 3 4 5 (by norm_num) (by norm_num),
    calculatePrice_monotone.2.2.2.2.2.2.1 1 1 (-1) 0 1 1 (by norm_num) (by norm_num)⟩

/-! ## Theorems on `updateDelivery`, `deleteDelivery` and the ownership check -/

theorem DeliveryStatus.ofName_name (st : DeliveryStatus) :
    DeliveryStatus.ofName st.name = some st := by
  cases st <;> decide

theorem DeliveryStatus.name_truthy (st : DeliveryStatus) :
    (JSValue.str st.name).truthy = true := by
  cases st <;> decide

theorem not_forbidden_of_authorised {d : Delivery} {reqUser : ReqUser}
    (hauth : d.user = reqUser.id ∨ reqUser.role = Role.admin) :
    ¬ (d.user ≠ reqUser.id ∧ reqUser.role ≠ Role.admin) := by
  rintro ⟨h1, h2⟩
  rcases hauth with h | h
  · exact h1 h
  · exact h2 h

theorem forbidden_of_not_authorised {d : Delivery} {reqUser : ReqUser}
    (hauth : ¬ (d.user = reqUser.id ∨ reqUser.role = Role.admin)) :
    d.user ≠ reqUser.id ∧ reqUser.role ≠ Role.admin :=
  ⟨fun h => hauth (Or.inl h), fun h => hauth (Or.inr h)⟩

/-- The test of the source on the body, `Object.keys(req.body).length !== 1 ||
!req.body.status`, holds exactly when the body is not status-only. -/
theorem statusOnly_iff (body : Body) :
    (body.length ≠ 1 ∨ JSValue.truthyProperty (body.property "status") = false)
      ↔ body.isStatusOnly = false := by
  match body with
  | [] => simp [Body.isStatusOnly]
  | [(k, v)] =>
    by_cases hk : k = "status"
    · subst hk
      simp [Body.isStatusOnly, Body.property, List.lookup, JSValue.truthyProperty]
    · have hk2 : ("status" == k) = false := by
        simp only [beq_eq_false_iff_ne, ne_eq]
        exact fun h => hk h.symm
      simp [Body.isStatusOnly, Body.property, List.lookup, JSValue.truthyProperty, hk, hk2]
  | _ :: _ :: _ => simp [Body.isStatusOnly]

/-- A request to `updateDelivery` either answers 200 with the stored document or
leaves the store as it was. -/
theorem updateDelivery_store (s : Store) (reqUser : ReqUser) (id : ObjectId) (body : Body)
    (writeOk : Bool) :
    (∃ d1, updateDelivery s reqUser id body writeOk
        = (s.replaceDelivery id d1, Outcome.ok 200 d1)) ∨
    ((updateDelivery s reqUser id body writeOk).1 = s ∧
      ∀ d1, (updateDelivery s reqUser id body writeOk).2 ≠ Outcome.ok 200 d1) := by
  unfold updateDelivery
  cases hd : s.findDelivery id with
  | none => right; simp
  | some delivery =>
    simp only []
    by_cases h1 : delivery.user ≠ reqUser.id ∧ reqUser.role ≠ Role.admin
    · right; simp only [if_pos h1]; simp
    · by_cases h2 : reqUser.role = Role.courier ∧
          (body.length ≠ 1 ∨ JSValue.truthyProperty (body.property "status") = false)
      · right; simp only [if_neg h1, if_pos h2]; simp
      · simp only [if_neg h1, if_neg h2]
        cases hu : delivery.applyUpdate body with
        | error e => right; simp
        | ok updated =>
          cases writeOk with
          | true => left; exact ⟨updated, by simp⟩
          | false => right; simp

/-- A direct status edit that the lifecycle allows starts from a non-terminal
state, goes to `cancelled` or to the next state, and is not `requested → accepted`. -/
theorem directEditAllowed_spec (current target : DeliveryStatus)
    (h : current.directEditAllowed target = true) :
    current.isTerminal = false ∧
    (target = DeliveryStatus.cancelled ∨ current.successor = some target) ∧
    ¬ (current = DeliveryStatus.requested ∧ target = DeliveryStatus.accepted) := by
  revert h
  cases current <;> cases target <;> decide

theorem setField_status (current : DeliveryStatus) (d d1 : Delivery) (key : String)
    (v : JSValue) (h : d.setField current key v = Except.ok d1)
    (hinv : d.status = current ∨ current.directEditAllowed d.status = true) :
    d1.status = current ∨ current.directEditAllowed d1.status = true := by
  unfold Delivery.setField at h
  by_cases hk : key = "status"
  · rw [if_pos hk] at h
    cases v with
    | str n =>
      simp only at h
      cases hn : DeliveryStatus.ofName n with
      | none => rw [hn] at h; simp at h
      | some target =>
        rw [hn] at h
        simp only at h
        by_cases ht : target = current
        · rw [if_pos ht] at h
          cases h
          exact Or.inl ht
        · rw [if_neg ht] at h
          by_cases ha : current.directEditAllowed target = true
          · rw [if_pos ha] at h
            cases h
            exact Or.inr ha
          · rw [if_neg ha] at h
            cases h
    | null => simp at h
    | bool b => simp at h
    | num q => simp at h
    | object => simp at h
  · rw [if_neg hk] at h
    by_cases hu : key = "user"
    · rw [if_pos hu] at h
      cases v with
      | str u => simp only at h; cases h; exact hinv
      | null => simp at h
      | bool b => simp at h
      | num q => simp at h
      | object => simp at h
    · rw [if_neg hu] at h
      by_cases hc : key = "courier"
      · rw [if_pos hc] at h; cases h
      · rw [if_neg hc] at h; cases h; exact hinv

theorem setField_id (current : DeliveryStatus) (d d1 : Delivery) (key : String)
    (v : JSValue) (h : d.setField current key v = Except.ok d1) : d1.id = d.id := by
  unfold Delivery.setField at h
  by_cases hk : key = "status"
  · rw [if_pos hk] at h
    cases v with
    | str n =>
      simp only at h
      cases hn : DeliveryStatus.ofName n with
      | none => rw [hn] at h; simp at h
      | some target =>
        rw [hn] at h
        simp only at h
        by_cases ht : target = current
        · rw [if_pos ht] at h
          cases h
          rfl
        · rw [if_neg ht] at h
          by_cases ha : current.directEditAllowed target = true
          · rw [if_pos ha] at h
            cases h
            rfl
          · rw [if_neg ha] at h
            cases h
    | null => simp at h
    | bool b => simp at h
    | num q => simp at h
    | object => simp at h
  · rw [if_neg hk] at h
    by_cases hu : key = "user"
    · rw [if_pos hu] at h
      cases v with
      | str u => simp only at h; cases h; rfl
      | null => simp at h
      | bool b => simp at h
      | num q => simp at h
      | object => simp at h
    · rw [if_neg hu] at h
      by_cases hc : key = "courier"
      · rw [if_pos hc] at h; cases h
      · rw [if_neg hc] at h; cases h; rfl

theorem applyFields_id (current : DeliveryStatus) (body : Body) (d d1 : Delivery)
    (h : Delivery.applyFields current d body = Except.ok d1) : d1.id = d.id := by
  induction body generalizing d with
  | nil =>
    simp only [Delivery.applyFields] at h
    cases h
    rfl
  | cons kv rest ih =>
    obtain ⟨k, v⟩ := kv
    simp only [Delivery.applyFields] at h
    cases hf : d.setField current k v with
    | error e => rw [hf] at h; simp at h
    | ok d2 =>
      rw [hf] at h
      rw [ih d2 h, setField_id current d d2 k v hf]

theorem applyFields_status (current : DeliveryStatus) (body : Body) (d d1 : Delivery)
    (h : Delivery.applyFields current d body = Except.ok d1)
    (hinv : d.status = current ∨ current.directEditAllowed d.status = true) :
    d1.status = current ∨ current.directEditAllowed d1.status = true := by
  induction body generalizing d with
  | nil =>
    simp only [Delivery.applyFields] at h
    cases h
    exact hinv
  | cons kv rest ih =>
    obtain ⟨k, v⟩ := kv
    simp only [Delivery.applyFields] at h
    cases hf : d.setField current k v with
    | error e => rw [hf] at h; simp at h
    | ok d2 =>
      rw [hf] at h
      exact ih d2 h (setField_status current d d2 k v hf hinv)

/-- An `updateDelivery` that answers 200 returns the document the model produced
for the body, and that document is the one stored. -/
theorem updateDelivery_ok (s s1 : Store) (reqUser : ReqUser) (id : ObjectId) (body : Body)
    (writeOk : Bool) (delivery d1 : Delivery)
    (hd : s.findDelivery id = some delivery)
    (h : updateDelivery s reqUser id body writeOk = (s1, Outcome.ok 200 d1)) :
    delivery.applyUpdate body = Except.ok d1 ∧ s1 = s.replaceDelivery id d1 := by
  unfold updateDelivery at h
  simp only [hd] at h
  by_cases h1 : delivery.user ≠ reqUser.id ∧ reqUser.role ≠ Role.admin
  · simp only [if_pos h1] at h; simp at h
  · by_cases h2 : reqUser.role = Role.courier ∧
        (body.length ≠ 1 ∨ JSValue.truthyProperty (body.property "status") = false)
    · simp only [if_neg h1, if_pos h2] at h; simp at h
    · simp only [if_neg h1, if_neg h2] at h
      cases hu : delivery.applyUpdate body with
      | error e => rw [hu] at h; simp at h
      | ok updated =>
        rw [hu] at h
        cases writeOk with
        | false => simp at h
        | true =>
          simp only [if_true, Prod.mk.injEq, Outcome.ok.injEq, true_and] at h
          obtain ⟨hs, hdd⟩ := h
          subst hdd
          exact ⟨rfl, hs.symm⟩

/-- A status change that the lifecycle allows, asked for by the owning user or an
admin in a status-only body, answers 200 and is stored when the write is
persisted. -/
theorem updateDelivery_allowed_change (s : Store) (reqUser : ReqUser) (id : ObjectId)
    (delivery : Delivery) (target : DeliveryStatus)
    (hd : s.findDelivery id = some delivery)
    (hauth : delivery.user = reqUser.id ∨ reqUser.role = Role.admin)
    (hallowed : delivery.status.directEditAllowed target = true) :
    updateDelivery s reqUser id [("status", JSValue.str target.name)] true
      = (s.replaceDelivery id { delivery with status := target },
          Outcome.ok 200 { delivery with status := target }) := by
  have hnot := not_forbidden_of_authorised hauth
  have hso : ¬ (reqUser.role = Role.courier ∧
      (([("status", JSValue.str target.name)] : Body).length ≠ 1 ∨
        JSValue.truthyProperty
          (Body.property [("status", JSValue.str target.name)] "status") = false)) := by
    rintro ⟨_, h⟩
    have := (statusOnly_iff [("status", JSValue.str target.name)]).mp h
    simp [Body.isStatusOnly, DeliveryStatus.name_truthy] at this
  have hterm : delivery.status.isTerminal = false :=
    (directEditAllowed_spec _ _ hallowed).1
  have hmodel : delivery.applyUpdate [("status", JSValue.str target.name)]
      = Except.ok { delivery with status := target } := by
    unfold Delivery.applyUpdate
    rw [if_neg (by rw [hterm]; simp)]
    simp only [Delivery.applyFields, Delivery.setField, if_true, DeliveryStatus.ofName_name]
    by_cases ht : target = delivery.status
    · simp [ht]
    · simp [ht, hallowed]
  unfold updateDelivery
  simp only [hd, if_neg hnot, if_neg hso, hmodel, if_true]

/-- C7: status changes made through `updateDelivery` respect the lifecycle, the
update of the absent `Delivery` model being the one modelled from the
specification. For an existing delivery with status `s`: if the call answers 200
the returned document is the stored one, and if its status `s'` differs from `s`
then `s` is not terminal, `s'` is `cancelled` or the next state after `s`, and
`(s, s')` is not `(requested, accepted)`. On a terminal delivery every attempted
edit, a status change included, leaves the store unchanged and is not answered
with 200, and for an actor who passes the ownership and courier checks it fails
with `InvalidTransition`. -/
theorem updateDelivery_lifecycle (s : Store) (reqUser : ReqUser) (id : ObjectId)
    (body : Body) (writeOk : Bool) (delivery : Delivery)
    (hd : s.findDelivery id = some delivery) :
    (∀ s1 d1, updateDelivery s reqUser id body writeOk = (s1, Outcome.ok 200 d1) →
      s1.findDelivery id = some d1 ∧
      (d1.status ≠ delivery.status →
        delivery.status.isTerminal = false ∧
        (d1.status = DeliveryStatus.cancelled ∨
          delivery.status.successor = some d1.status) ∧
        ¬ (delivery.status = DeliveryStatus.requested ∧
            d1.status = DeliveryStatus.accepted))) ∧
    (delivery.status.isTerminal = true → body ≠ [] →
      (updateDelivery s reqUser id body writeOk).1 = s ∧
      (∀ d1, (updateDelivery s reqUser id body writeOk).2 ≠ Outcome.ok 200 d1) ∧
      ((delivery.user = reqUser.id ∨ reqUser.role = Role.admin) →
        (reqUser.role = Role.courier → body.isStatusOnly = true) →
        updateDelivery s reqUser id body writeOk
          = (s, Outcome.rejected ModelError.InvalidTransition))) := by
  constructor
  · intro s1 d1 h
    obtain ⟨hmodel, hs1⟩ := updateDelivery_ok s s1 reqUser id body writeOk delivery d1 hd h
    have hfields : Delivery.applyFields delivery.status delivery body = Except.ok d1 := by
      unfold Delivery.applyUpdate at hmodel
      by_cases hterm : delivery.status.isTerminal = true ∧ body ≠ []
      · rw [if_pos hterm] at hmodel; cases hmodel
      · rw [if_neg hterm] at hmodel; exact hmodel
    have hid : d1.id = id := by
      rw [applyFields_id delivery.status body delivery d1 hfields]
      exact findDelivery_id hd
    constructor
    · rw [hs1]
      exact find_map_replace (fun x : Delivery => x.id) id d1 hid s.deliveries delivery hd
    · intro hne
      rcases applyFields_status delivery.status body delivery d1 hfields (Or.inl rfl)
        with h1 | h1
      · exact absurd h1 hne
      · exact directEditAllowed_spec _ _ h1
  · intro hterm hbody
    have hmodel : delivery.applyUpdate body = Except.error ModelError.InvalidTransition := by
      unfold Delivery.applyUpdate
      rw [if_pos ⟨hterm, hbody⟩]
    have hnotok : ∀ d1, (updateDelivery s reqUser id body writeOk).2 ≠ Outcome.ok 200 d1 := by
      intro d1 hok
      have hrun : updateDelivery s reqUser id body writeOk
          = ((updateDelivery s reqUser id body writeOk).1, Outcome.ok 200 d1) := by
        rw [← hok]
      have := (updateDelivery_ok s _ reqUser id body writeOk delivery d1 hd hrun).1
      rw [hmodel] at this
      cases this
    refine ⟨?_, hnotok, ?_⟩
    · rcases updateDelivery_store s reqUser id body writeOk with ⟨d1, h⟩ | ⟨h, _⟩
      · exact absurd (by rw [h]) (hnotok d1)
      · exact h
    · intro hauth hcourier
      have hnot := not_forbidden_of_authorised hauth
      have hso : ¬ (reqUser.role = Role.courier ∧
          (body.length ≠ 1 ∨ JSValue.truthyProperty (body.property "status") = false)) := by
        rintro ⟨hr, h⟩
        have h1 := (statusOnly_iff body).mp h
        rw [hcourier hr] at h1
        cases h1
      unfold updateDelivery
      simp only [hd, if_neg hnot, if_neg hso, hmodel]

/-- Witness of `updateDelivery_lifecycle`: the owner `u1` asks to set the delivered
delivery `d2` back to `requested`. -/
theorem updateDelivery_lifecycle_witness :
    (∀ s1 d1, updateDelivery busyFleet ⟨"u1", Role.user⟩ "d2"
        [("status", .str "requested")] true = (s1, Outcome.ok 200 d1) →
      s1.findDelivery "d2" = some d1 ∧
      (d1.status ≠ DeliveryStatus.delivered →
        DeliveryStatus.delivered.isTerminal = false ∧
        (d1.status = DeliveryStatus.cancelled ∨
          DeliveryStatus.delivered.successor = some d1.status) ∧
        ¬ (DeliveryStatus.delivered = DeliveryStatus.requested ∧
            d1.status = DeliveryStatus.accepted))) ∧
    (DeliveryStatus.delivered.isTerminal = true →
      ([("status", .str "requested")] : Body) ≠ [] →
      (updateDelivery busyFleet ⟨"u1", Role.user⟩ "d2"
        [("status", .str "requested")] true).1 = busyFleet ∧
      (∀ d1, (updateDelivery busyFleet ⟨"u1", Role.user⟩ "d2"
        [("status", .str "requested")] true).2 ≠ Outcome.ok 200 d1) ∧
      (("u1" = "u1" ∨ Role.user = Role.admin) →
        (Role.user = Role.courier →
          Body.isStatusOnly [("status", .str "requested")] = true) →
        updateDelivery busyFleet ⟨"u1", Role.user⟩ "d2" [("status", .str "requested")] true
          = (busyFleet, Outcome.rejected ModelError.InvalidTransition))) :=
  updateDelivery_lifecycle busyFleet ⟨"u1", Role.user⟩ "d2" [("status", .str "requested")]
    true ⟨"d2", "u1", some "c1", .delivered, []⟩ (by decide)

/-- C8, the failing input: `u2` is the user linked to courier `c1`, the courier
assigned to delivery `d1` of user `u1`. The ownership check should let the
status-only update of `d1` by `u2` through to the courier branch ("If courier is
updating, only allow status updates"); the owner-or-admin guard placed before that
branch refuses it with the 401 error, and the store is unchanged. -/
theorem updateDelivery_assigned_courier_forbidden :
    (busyFleet.findDelivery "d1").map (fun d => d.courier) = some (some "c1") ∧
    (busyFleet.findCourier "c1").map (fun c => c.user) = some "u2" ∧
    Body.isStatusOnly [("status", .str "picked_up")] = true ∧
    updateDelivery busyFleet ⟨"u2", Role.courier⟩ "d1" [("status", .str "picked_up")] true
      = (busyFleet, Outcome.fail ⟨ErrorMessage.notAuthorizedUpdate "u2", 401⟩) ∧
    (⟨ErrorMessage.notAuthorizedUpdate "u2", 401⟩ : ErrorResponse).failure
      = Failure.Forbidden := by
  decide

/-- The guard of `updateDelivery`, `deleteDelivery` and `assignCourier` as it is
written: on an existing delivery, an actor who is neither the owning user nor an
admin gets the 401 error from each of them, whatever the body, and the store is
unchanged; for the owning user and for an admin none of the three answers with a
401 error. -/
theorem ownership_check (s : Store) (reqUser : ReqUser) (id courierId : ObjectId)
    (body : Body) (delivery : Delivery) (writeOk removeOk courierSaveOk deliverySaveOk : Bool)
    (hd : s.findDelivery id = some delivery) :
    (¬ (delivery.user = reqUser.id ∨ reqUser.role = Role.admin) →
      updateDelivery s reqUser id body writeOk
        = (s, Outcome.fail ⟨ErrorMessage.notAuthorizedUpdate reqUser.id, 401⟩) ∧
      deleteDelivery s reqUser id removeOk
        = (s, Outcome.fail ⟨ErrorMessage.notAuthorizedDelete reqUser.id, 401⟩) ∧
      assignCourier s reqUser id courierId courierSaveOk deliverySaveOk
        = (s, Outcome.fail ⟨ErrorMessage.notAuthorizedAssign reqUser.id, 401⟩) ∧
      (⟨ErrorMessage.notAuthorizedUpdate reqUser.id, 401⟩ : ErrorResponse).failure
        = Failure.Forbidden ∧
      (⟨ErrorMessage.notAuthorizedDelete reqUser.id, 401⟩ : ErrorResponse).failure
        = Failure.Forbidden ∧
      (⟨ErrorMessage.notAuthorizedAssign reqUser.id, 401⟩ : ErrorResponse).failure
        = Failure.Forbidden) ∧
    ((delivery.user = reqUser.id ∨ reqUser.role = Role.admin) →
      (∀ e, (updateDelivery s reqUser id body writeOk).2 = Outcome.fail e →
        e.statusCode ≠ 401) ∧
      (∀ e, (deleteDelivery s reqUser id removeOk).2 ≠ Outcome.fail e) ∧
      (∀ e, (assignCourier s reqUser id courierId courierSaveOk deliverySaveOk).2
        = Outcome.fail e → e.statusCode ≠ 401)) := by
  constructor
  · intro hauth
    have hyes := forbidden_of_not_authorised hauth
    refine ⟨?_, ?_, ?_, rfl, rfl, rfl⟩
    · unfold updateDelivery
      simp only [hd, if_pos hyes]
    · unfold deleteDelivery
      simp only [hd, if_pos hyes]
    · unfold assignCourier
      simp only [hd, if_pos hyes]
  · intro hauth
    have hnot := not_forbidden_of_authorised hauth
    refine ⟨?_, ?_, ?_⟩
    · intro e he
      unfold updateDelivery at he
      simp only [hd, if_neg hnot] at he
      by_cases h2 : reqUser.role = Role.courier ∧
          (body.length ≠ 1 ∨ JSValue.truthyProperty (body.property "status") = false)
      · simp only [if_pos h2, Outcome.fail.injEq] at he
        rw [← he]; simp
      · simp only [if_neg h2] at he
        cases hu : delivery.applyUpdate body with
        | error e1 => rw [hu] at he; simp at he
        | ok updated =>
          rw [hu] at he
          cases writeOk <;> simp at he
    · intro e
      unfold deleteDelivery
      simp only [hd, if_neg hnot]
      cases removeOk <;> simp
    · intro e he
      unfold assignCourier at he
      simp only [hd, if_neg hnot] at he
      cases hc : s.findCourier courierId with
      | none =>
        rw [hc] at he
        simp only [Outcome.fail.injEq] at he
        rw [← he]; simp
      | some courier =>
        rw [hc] at he
        by_cases hav : courier.status ≠ CourierStatus.available
        · simp only [if_pos hav, Outcome.fail.injEq] at he
          rw [← he]; simp
        · simp only [if_neg hav] at he
          cases courierSaveOk <;> cases deliverySaveOk <;> simp at he

/-- Witness of `ownership_check`: the delivery `d1` of user `u1`, with the courier's
user `u2` as actor. -/
theorem ownership_check_witness :
    (¬ ("u1" = "u2" ∨ Role.courier = Role.admin) →
      updateDelivery busyFleet ⟨"u2", Role.courier⟩ "d1" [("status", .str "picked_up")] true
        = (busyFleet, Outcome.fail ⟨ErrorMessage.notAuthorizedUpdate "u2", 401⟩) ∧
      deleteDelivery busyFleet ⟨"u2", Role.courier⟩ "d1" true
        = (busyFleet, Outcome.fail ⟨ErrorMessage.notAuthorizedDelete "u2", 401⟩) ∧
      assignCourier busyFleet ⟨"u2", Role.courier⟩ "d1" "c1" true true
        = (busyFleet, Outcome.fail ⟨ErrorMessage.notAuthorizedAssign "u2", 401⟩) ∧
      (⟨ErrorMessage.notAuthorizedUpdate "u2", 401⟩ : ErrorResponse).failure
        = Failure.Forbidden ∧
      (⟨ErrorMessage.notAuthorizedDelete "u2", 401⟩ : ErrorResponse).failure
        = Failure.Forbidden ∧
      (⟨ErrorMessage.notAuthorizedAssign "u2", 401⟩ : ErrorResponse).failure
        = Failure.Forbidden) ∧
    (("u1" = "u2" ∨ Role.courier = Role.admin) →
      (∀ e, (updateDelivery busyFleet ⟨"u2", Role.courier⟩ "d1"
          [("status", .str "picked_up")] true).2 = Outcome.fail e → e.statusCode ≠ 401) ∧
      (∀ e, (deleteDelivery busyFleet ⟨"u2", Role.courier⟩ "d1" true).2 ≠ Outcome.fail e) ∧
      (∀ e, (assignCourier busyFleet ⟨"u2", Role.courier⟩ "d1" "c1" true true).2
        = Outcome.fail e → e.statusCode ≠ 401)) :=
  ownership_check busyFleet ⟨"u2", Role.courier⟩ "d1" "c1" [("status", .str "picked_up")]
    ⟨"d1", "u1", some "c1", .accepted, []⟩ true true true true (by decide)

/-- C9: for an actor with role `courier`, an existing delivery and a body that is not
exactly the single field `status` with a non-empty value, `updateDelivery` fails
with `Forbidden` (the 401 ownership error when the courier is not the owner, the 400
"Couriers can only update delivery status" error when it is) and the store,
hence the stored delivery, is unchanged. -/
theorem updateDelivery_courier_restricted (s : Store) (reqUser : ReqUser) (id : ObjectId)
    (body : Body) (writeOk : Bool) (delivery : Delivery)
    (hrole : reqUser.role = Role.courier)
    (hd : s.findDelivery id = some delivery)
    (hbody : body.isStatusOnly = false) :
    ∃ e, updateDelivery s reqUser id body writeOk = (s, Outcome.fail e) ∧
      e.failure = Failure.Forbidden ∧
      (e = ⟨ErrorMessage.notAuthorizedUpdate reqUser.id, 401⟩ ∨
        e = ⟨ErrorMessage.couriersOnlyStatus, 400⟩) ∧
      (updateDelivery s reqUser id body writeOk).1.findDelivery id = some delivery := by
  have hcond := (statusOnly_iff body).mpr hbody
  by_cases hauth : delivery.user ≠ reqUser.id ∧ reqUser.role ≠ Role.admin
  · have hrun : updateDelivery s reqUser id body writeOk
        = (s, Outcome.fail ⟨ErrorMessage.notAuthorizedUpdate reqUser.id, 401⟩) := by
      unfold updateDelivery
      simp only [hd, if_pos hauth]
    exact ⟨_, hrun, rfl, Or.inl rfl, by rw [hrun]; exact hd⟩
  · have hrun : updateDelivery s reqUser id body writeOk
        = (s, Outcome.fail ⟨ErrorMessage.couriersOnlyStatus, 400⟩) := by
      unfold updateDelivery
      simp only [hd, if_neg hauth, if_pos (And.intro hrole hcond)]
    exact ⟨_, hrun, rfl, Or.inr rfl, by rw [hrun]; exact hd⟩

/-- Witness of `updateDelivery_courier_restricted`: the courier `u2` tries to change
the drop-off address of its own delivery `d4` together with the status. -/
theorem updateDelivery_courier_restricted_witness :
    ∃ e, updateDelivery busyFleet ⟨"u2", Role.courier⟩ "d4"
          [("deliveryLocation", JSValue.object), ("status", .str "cancelled")] true
        = (busyFleet, Outcome.fail e) ∧
      e.failure = Failure.Forbidden ∧
      (e = ⟨ErrorMessage.notAuthorizedUpdate "u2", 401⟩ ∨
        e = ⟨ErrorMessage.couriersOnlyStatus, 400⟩) ∧
      (updateDelivery busyFleet ⟨"u2", Role.courier⟩ "d4"
          [("deliveryLocation", JSValue.object), ("status", .str "cancelled")] true).1.findDelivery
        "d4" = some ⟨"d4", "u2", none, .requested, []⟩ :=
  updateDelivery_courier_restricted busyFleet ⟨"u2", Role.courier⟩ "d4"
    [("deliveryLocation", JSValue.object), ("status", .str "cancelled")] true
    ⟨"d4", "u2", none, .requested, []⟩ rfl (by decide) (by decide)

/-! ## Theorems on `deleteCourier` -/

/-- A `deleteCourier` that answers 200 found the courier and ran the cascade hook,
the removal and the role update, in that order. -/
theorem deleteCourier_ok_store (s s1 : Store) (reqUser : ReqUser) (id : ObjectId)
    (cascadeOk removeOk roleOk : Bool)
    (h : deleteCourier s reqUser id cascadeOk removeOk roleOk = (s1, Outcome.ok 200 ())) :
    ∃ courier, s.findCourier id = some courier ∧
      s1 = (courier.removeDocument (courier.preRemove s)).setUserRole reqUser.id Role.user := by
  unfold deleteCourier at h
  cases hc : s.findCourier id with
  | none => rw [hc] at h; simp at h
  | some courier =>
    rw [hc] at h
    refine ⟨courier, rfl, ?_⟩
    by_cases hauth : courier.user ≠ reqUser.id ∧ reqUser.role ≠ Role.admin
    · simp only [if_pos hauth] at h
      simp at h
    · simp only [if_neg hauth] at h
      cases cascadeOk <;> cases removeOk <;> cases roleOk <;> simp at h
      exact h.symm

/-- C10: after a `deleteCourier` of courier `id` that answers 200, the store holds no
courier `id` and no delivery whose courier reference is `id`, and the deliveries
are exactly the former ones that did not reference `id`, each as it was. -/
theorem deleteCourier_cascade (s s1 : Store) (reqUser : ReqUser) (id : ObjectId)
    (cascadeOk removeOk roleOk : Bool)
    (h : deleteCourier s reqUser id cascadeOk removeOk roleOk = (s1, Outcome.ok 200 ())) :
    s1.findCourier id = none ∧
    (∀ c ∈ s1.couriers, c.id ≠ id) ∧
    (∀ d ∈ s1.deliveries, d.courier ≠ some id) ∧
    (∀ d ∈ s.deliveries, d.courier ≠ some id → d ∈ s1.deliveries) ∧
    (∀ d ∈ s1.deliveries, d ∈ s.deliveries) ∧
    s1.deliveries = s.deliveries.filter (fun d => decide (d.courier ≠ some id)) := by
  obtain ⟨courier, hc, hs1⟩ := deleteCourier_ok_store s s1 reqUser id cascadeOk removeOk roleOk h
  have hid : courier.id = id := findCourier_id hc
  have hdel : s1.deliveries = s.deliveries.filter (fun d => decide (d.courier ≠ some id)) := by
    rw [hs1, ← hid]; rfl
  have hcou : s1.couriers = s.couriers.filter (fun x => decide (x.id ≠ id)) := by
    rw [hs1, ← hid]; rfl
  have hnone : ∀ c ∈ s1.couriers, c.id ≠ id := by
    intro c hmem
    rw [hcou, List.mem_filter] at hmem
    simpa using hmem.2
  refine ⟨?_, hnone, ?_, ?_, ?_, hdel⟩
  · unfold Store.findCourier
    rw [List.find?_eq_none]
    intro c hmem
    simpa using hnone c hmem
  · intro d hmem
    rw [hdel, List.mem_filter] at hmem
    simpa using hmem.2
  · intro d hmem hne
    rw [hdel, List.mem_filter]
    exact ⟨hmem, by simpa using hne⟩
  · intro d hmem
    rw [hdel, List.mem_filter] at hmem
    exact hmem.1

/-- Witness of `deleteCourier_cascade`: courier `c1`, referenced by the two deliveries
`d1` and `d2`, is deleted by its own user; `d3` and `d4` remain. -/
theorem deleteCourier_cascade_witness :
    (deleteCourier busyFleet ⟨"u2", Role.courier⟩ "c1" true true true).1.findCourier "c1"
      = none ∧
    (∀ c ∈ (deleteCourier busyFleet ⟨"u2", Role.courier⟩ "c1" true true true).1.couriers,
      c.id ≠ "c1") ∧
    (∀ d ∈ (deleteCourier busyFleet ⟨"u2", Role.courier⟩ "c1" true true true).1.deliveries,
      d.courier ≠ some "c1") ∧
    (∀ d ∈ busyFleet.deliveries, d.courier ≠ some "c1" →
      d ∈ (deleteCourier busyFleet ⟨"u2", Role.courier⟩ "c1" true true true).1.deliveries) ∧
    (∀ d ∈ (deleteCourier busyFleet ⟨"u2", Role.courier⟩ "c1" true true true).1.deliveries,
      d ∈ busyFleet.deliveries) ∧
    (deleteCourier busyFleet ⟨"u2", Role.courier⟩ "c1" true true true).1.deliveries
      = busyFleet.deliveries.filter (fun d => decide (d.courier ≠ some "c1")) :=
  deleteCourier_cascade busyFleet
    (deleteCourier busyFleet ⟨"u2", Role.courier⟩ "c1" true true true).1
    ⟨"u2", Role.courier⟩ "c1" true true true (by decide)

/-- An authorised `deleteCourier` of an existing courier whose three writes are
persisted answers 200. -/
theorem deleteCourier_succeeds (s : Store) (reqUser : ReqUser) (id : ObjectId)
    (courier : Courier) (hc : s.findCourier id = some courier)
    (hauth : courier.user = reqUser.id ∨ reqUser.role = Role.admin) :
    deleteCourier s reqUser id true true true
      = ((courier.removeDocument (courier.preRemove s)).setUserRole reqUser.id Role.user,
          Outcome.ok 200 ()) := by
  have hnot : ¬ (courier.user ≠ reqUser.id ∧ reqUser.role ≠ Role.admin) := by
    rintro ⟨h1, h2⟩
    rcases hauth with h | h
    · exact h1 h
    · exact h2 h
  unfold deleteCourier
  simp only [hc, if_neg hnot, if_true]

/-! ## Theorems on the role update of `deleteCourier` -/

theorem users_find_update_same (userId : ObjectId) (role : Role) (l : List User) (u : User)
    (h : l.find? (fun x => decide (x.id = userId)) = some u) :
    (l.map (fun x => if x.id = userId then ({ x with role := role } : User) else x)).find?
        (fun x => decide (x.id = userId)) = some { u with role := role } := by
  induction l with
  | nil => simp at h
  | cons y ys ih =>
    rw [List.find?_cons] at h
    rw [List.map_cons, List.find?_cons]
    by_cases hy : y.id = userId
    · rw [decide_eq_true hy] at h
      rw [if_pos hy]
      have hy2 : ({ y with role := role } : User).id = userId := hy
      rw [decide_eq_true hy2]
      cases h
      rfl
    · rw [decide_eq_false hy] at h
      rw [if_neg hy, decide_eq_false hy]
      exact ih h

theorem users_find_update_other (userId other : ObjectId) (role : Role) (hne : other ≠ userId)
    (l : List User) :
    (l.map (fun x => if x.id = userId then ({ x with role := role } : User) else x)).find?
        (fun x => decide (x.id = other)) = l.find? (fun x => decide (x.id = other)) := by
  induction l with
  | nil => rfl
  | cons y ys ih =>
    rw [List.map_cons, List.find?_cons, List.find?_cons]
    by_cases hy : y.id = userId
    · have hyo : ¬ y.id = other := fun h => hne (h.symm.trans hy)
      rw [if_pos hy, decide_eq_false hyo]
      exact ih
    · rw [if_neg hy]
      by_cases hyo : y.id = other
      · rw [decide_eq_true hyo]
      · rw [decide_eq_false hyo]
        exact ih

theorem findUser_setUserRole_same (s : Store) (userId : ObjectId) (role : Role) (u : User)
    (h : s.findUser userId = some u) :
    (s.setUserRole userId role).findUser userId = some { u with role := role } :=
  users_find_update_same userId role s.users u h

theorem findUser_setUserRole_other (s : Store) (userId other : ObjectId) (role : Role)
    (hne : other ≠ userId) :
    (s.setUserRole userId role).findUser other = s.findUser other :=
  users_find_update_other userId other role hne s.users

/-- When the actor is the courier's own linked user, a `deleteCourier` whose writes
are persisted leaves that user with role `user` and every other user as it was. -/
theorem deleteCourier_own_user_role (s : Store) (reqUser : ReqUser) (id : ObjectId)
    (courier : Courier) (u : User)
    (hc : s.findCourier id = some courier) (hown : courier.user = reqUser.id)
    (hu : s.findUser courier.user = some u) :
    (deleteCourier s reqUser id true true true).2 = Outcome.ok 200 () ∧
    (deleteCourier s reqUser id true true true).1.findUser courier.user
      = some { u with role := Role.user } ∧
    ∀ other, other ≠ courier.user →
      (deleteCourier s reqUser id true true true).1.findUser other = s.findUser other := by
  rw [deleteCourier_succeeds s reqUser id courier hc (Or.inl hown)]
  refine ⟨rfl, ?_, ?_⟩
  · rw [hown]
    exact findUser_setUserRole_same _ reqUser.id Role.user u (by rw [← hown]; exact hu)
  · intro other hne
    exact findUser_setUserRole_other _ reqUser.id other Role.user (by rw [← hown]; exact hne)

/-- C13, the failing input: the admin `u3` deletes courier `c1`, whose linked user is
`u2`. The call answers 200; afterwards `u2` still has role `courier` and the admin
`u3` has role `user`. -/
theorem deleteCourier_admin_demoted :
    (busyFleet.findCourier "c1").map (fun c => c.user) = some "u2" ∧
    busyFleet.findUser "u2" = some ⟨"u2", Role.courier⟩ ∧
    busyFleet.findUser "u3" = some ⟨"u3", Role.admin⟩ ∧
    (deleteCourier busyFleet ⟨"u3", Role.admin⟩ "c1" true true true).2 = Outcome.ok 200 () ∧
    (deleteCourier busyFleet ⟨"u3", Role.admin⟩ "c1" true true true).1.findUser "u2"
      = some ⟨"u2", Role.courier⟩ ∧
    (deleteCourier busyFleet ⟨"u3", Role.admin⟩ "c1" true true true).1.findUser "u3"
      = some ⟨"u3", Role.user⟩ := by
  decide

/-! ## Theorems on `calculateDistance` -/

theorem calculateDistance_eq (p q : ℝ × ℝ) :
    calculateDistance p q =
      match mathSqrt (haversineA p q), mathSqrt (1 - haversineA p q) with
      | some y, some x => some (6371 * (2 * mathAtan2 y x))
      | _, _ => none := by
  obtain ⟨x1, y1⟩ := p
  obtain ⟨x2, y2⟩ := q
  rfl

theorem haversineA_comm (p q : ℝ × ℝ) : haversineA p q = haversineA q p := by
  obtain ⟨x1, y1⟩ := p
  obtain ⟨x2, y2⟩ := q
  simp only [haversineA]
  have e1 : (y1 - y2) * (Real.pi / 180) / 2 = -((y2 - y1) * (Real.pi / 180) / 2) := by ring
  have e2 : (x1 - x2) * (Real.pi / 180) / 2 = -((x2 - x1) * (Real.pi / 180) / 2) := by ring
  rw [e1, e2, Real.sin_neg, Real.sin_neg]
  ring

theorem haversineA_self (p : ℝ × ℝ) : haversineA p p = 0 := by
  simp [haversineA]

theorem cos_latitude_nonneg (lat : ℝ) (h1 : -90 ≤ lat) (h2 : lat ≤ 90) :
    0 ≤ Real.cos (lat * (Real.pi / 180)) := by
  apply Real.cos_nonneg_of_neg_pi_div_two_le_of_le
  · have := Real.pi_pos; nlinarith
  · have := Real.pi_pos; nlinarith

theorem haversineA_nonneg (p q : ℝ × ℝ) (hp : validPoint p) (hq : validPoint q) :
    0 ≤ haversineA p q := by
  obtain ⟨x1, y1⟩ := p
  obtain ⟨x2, y2⟩ := q
  simp only [haversineA]
  have c1 := cos_latitude_nonneg y1 hp.2.2.1 hp.2.2.2
  have c2 := cos_latitude_nonneg y2 hq.2.2.1 hq.2.2.2
  have s1 := mul_self_nonneg (Real.sin ((y2 - y1) * (Real.pi / 180) / 2))
  have s2 := mul_self_nonneg (Real.sin ((x2 - x1) * (Real.pi / 180) / 2))
  have := mul_nonneg (mul_nonneg c1 c2) s2
  nlinarith

theorem haversineA_le_one (p q : ℝ × ℝ) (hp : validPoint p) (hq : validPoint q) :
    haversineA p q ≤ 1 := by
  obtain ⟨x1, y1⟩ := p
  obtain ⟨x2, y2⟩ := q
  simp only [haversineA]
  have c1 := cos_latitude_nonneg y1 hp.2.2.1 hp.2.2.2
  have c2 := cos_latitude_nonneg y2 hq.2.2.1 hq.2.2.2
  set u := (y2 - y1) * (Real.pi / 180) / 2 with hu
  set v := (x2 - x1) * (Real.pi / 180) / 2 with hv
  set φ1 := y1 * (Real.pi / 180) with h1
  set φ2 := y2 * (Real.pi / 180) with h2
  have hsv : Real.sin v * Real.sin v ≤ 1 := by
    have := Real.sin_sq_add_cos_sq v
    nlinarith [mul_self_nonneg (Real.cos v)]
  have hsu : Real.sin u * Real.sin u = 1 - Real.cos u ^ 2 := by
    have := Real.sin_sq_add_cos_sq u
    nlinarith
  have hcu : Real.cos u ^ 2 = 1 / 2 + Real.cos (φ2 - φ1) / 2 := by
    rw [Real.cos_sq u]
    congr 2
    rw [hu, h1, h2]; ring_nf
  have hsum : Real.cos (φ1 + φ2) ≤ 1 := Real.cos_le_one _
  rw [Real.cos_add] at hsum
  rw [Real.cos_sub] at hcu
  have hprod : Real.cos φ1 * Real.cos φ2 * (Real.sin v * Real.sin v)
      ≤ Real.cos φ1 * Real.cos φ2 := by
    have := mul_nonneg c1 c2
    nlinarith
  nlinarith

/-- C11: over the real numbers, for valid points `a` and `b` (longitude in
`[-180, 180]`, latitude in `[-90, 90]`), `calculateDistance(a, a)` is `0`,
`calculateDistance(a, b)` equals `calculateDistance(b, a)`, and
`calculateDistance(a, b)` is a number (not `NaN`) that is at least `0`. -/
theorem calculateDistance_metric (a b : ℝ × ℝ) (ha : validPoint a) (hb : validPoint b) :
    calculateDistance a a = some 0 ∧
    calculateDistance a b = calculateDistance b a ∧
    ∃ d, calculateDistance a b = some d ∧ calculateDistance b a = some d ∧ 0 ≤ d := by
  have hsymm : calculateDistance a b = calculateDistance b a := by
    rw [calculateDistance_eq, calculateDistance_eq, haversineA_comm a b]
  refine ⟨?_, hsymm, ?_⟩
  · rw [calculateDistance_eq, haversineA_self]
    simp only [mathSqrt, sub_zero, Real.sqrt_zero, Real.sqrt_one, le_refl, zero_le_one,
      if_true, mathAtan2]
    have h1 : (⟨1, 0⟩ : ℂ) = 1 := by apply Complex.ext <;> simp
    rw [h1, Complex.arg_one]
    norm_num
  · have h0 := haversineA_nonneg a b ha hb
    have h1 : 0 ≤ 1 - haversineA a b := by linarith [haversineA_le_one a b ha hb]
    have hrun : calculateDistance a b = some (6371 * (2 *
        mathAtan2 (Real.sqrt (haversineA a b)) (Real.sqrt (1 - haversineA a b)))) := by
      rw [calculateDistance_eq]
      simp only [mathSqrt, if_pos h0, if_pos h1]
    refine ⟨_, hrun, by rw [← hsymm]; exact hrun, ?_⟩
    have : 0 ≤ mathAtan2 (Real.sqrt (haversineA a b)) (Real.sqrt (1 - haversineA a b)) := by
      unfold mathAtan2
      rw [Complex.arg_nonneg_iff]
      exact Real.sqrt_nonneg _
    nlinarith

/-- Witness of `calculateDistance_metric`: the points `[3, 6]` and `[-74, 40]`. -/
theorem calculateDistance_metric_witness :
    calculateDistance (3, 6) (3, 6) = some 0 ∧
    calculateDistance (3, 6) (-74, 40) = calculateDistance (-74, 40) (3, 6) ∧
    ∃ d, calculateDistance (3, 6) (-74, 40) = some d ∧
      calculateDistance (-74, 40) (3, 6) = some d ∧ 0 ≤ d :=
  calculateDistance_metric (3, 6) (-74, 40) (by norm_num [validPoint])
    (by norm_num [validPoint])

/-! ## Theorems on `generateTrackingNumber` -/

theorem chars_length : chars.length = 36 := by decide

theorem chars_data_length : chars.data.length = 36 := by decide

theorem foldl_append_chars (f : ℕ → String) (g : ℕ → Char) (l : List ℕ)
    (h : ∀ i ∈ l, f i = String.singleton (g i)) (init : String) :
    (l.foldl (fun result i => result ++ f i) init).data = init.data ++ l.map g := by
  induction l generalizing init with
  | nil => simp
  | cons x xs ih =>
    rw [List.foldl_cons, ih (fun i hi => h i (List.mem_cons_of_mem x hi))]
    rw [h x (List.mem_cons_self x xs)]
    simp [String.data_append, String.singleton]

theorem floor_index_bounds {α : Type} [LinearOrderedField α] [FloorRing α]
    (x : α) (h0 : 0 ≤ x) (h1 : x < 1) :
    0 ≤ ⌊x * (chars.length : α)⌋ ∧ ⌊x * (chars.length : α)⌋ < 36 := by
  rw [chars_length]
  constructor
  · rw [Int.floor_nonneg]
    exact mul_nonneg h0 (by norm_num)
  · rw [Int.floor_lt]
    push_cast
    nlinarith

theorem charAt_floor {α : Type} [LinearOrderedField α] [FloorRing α]
    (x : α) (h0 : 0 ≤ x) (h1 : x < 1) :
    charAt chars ⌊x * (chars.length : α)⌋
      = String.singleton (chars.data.getD ⌊x * (chars.length : α)⌋.toNat 'A') := by
  obtain ⟨hlo, hhi⟩ := floor_index_bounds x h0 h1
  have hlt : ⌊x * (chars.length : α)⌋.toNat < chars.data.length := by
    rw [chars_data_length]; omega
  unfold charAt
  rw [if_pos hlo, List.getD_eq_getElem?_getD, List.getElem?_eq_getElem hlt]
  rfl

theorem generateTrackingNumber_data {α : Type} [LinearOrderedField α] [FloorRing α]
    (random : ℕ → α) (h : ∀ i < 12, 0 ≤ random i ∧ random i < 1) :
    (generateTrackingNumber random).data
      = (List.range 12).map
          (fun i => chars.data.getD ⌊random i * (chars.length : α)⌋.toNat 'A') := by
  unfold generateTrackingNumber
  rw [foldl_append_chars (fun i => charAt chars ⌊random i * (chars.length : α)⌋)
    (fun i => chars.data.getD ⌊random i * (chars.length : α)⌋.toNat 'A')]
  · rfl
  · intro i hi
    have hi2 : i < 12 := List.mem_range.mp hi
    exact charAt_floor (random i) (h i hi2).1 (h i hi2).2

theorem char_le_iff (a b : Char) : a ≤ b ↔ a.toNat ≤ b.toNat := by
  show a.val ≤ b.val ↔ _
  rw [UInt32.le_def]
  rfl

theorem mem_chars_of_isTrackingChar (c : Char) (h : isTrackingChar c) : c ∈ chars.data := by
  unfold isTrackingChar at h
  simp only [char_le_iff] at h
  have hc : c = Char.ofNat c.toNat := (Char.ofNat_toNat c).symm
  generalize c.toNat = n at h hc
  subst hc
  have e1 : ('A' : Char).toNat = 65 := by decide
  have e2 : ('Z' : Char).toNat = 90 := by decide
  have e3 : ('0' : Char).toNat = 48 := by decide
  have e4 : ('9' : Char).toNat = 57 := by decide
  rw [e1, e2, e3, e4] at h
  rcases h with ⟨h1, h2⟩ | ⟨h1, h2⟩
  · interval_cases n <;> decide
  · interval_cases n <;> decide

theorem isTrackingChar_of_mem_chars : ∀ c ∈ chars.data, isTrackingChar c := by decide

theorem randomFor_spec (c : Char) (h : c ∈ chars.data) :
    0 ≤ randomFor ℝ c ∧ randomFor ℝ c < 1 ∧
      chars.data.getD ⌊randomFor ℝ c * (chars.length : ℝ)⌋.toNat 'A' = c := by
  have hlt : chars.data.indexOf c < chars.data.length := List.indexOf_lt_length.mpr h
  have hlt36 : chars.data.indexOf c < 36 := by rw [chars_data_length] at hlt; exact hlt
  have hfloor : ⌊randomFor ℝ c * (chars.length : ℝ)⌋ = (chars.data.indexOf c : ℤ) := by
    rw [chars_length]
    unfold randomFor
    push_cast
    rw [div_mul_cancel₀ _ (by norm_num : (36 : ℝ) ≠ 0)]
    exact Int.floor_natCast _
  refine ⟨?_, ?_, ?_⟩
  · unfold randomFor; positivity
  · unfold randomFor
    rw [div_lt_one (by norm_num)]
    exact_mod_cast hlt36
  · rw [hfloor, Int.toNat_natCast, List.getD_eq_getElem?_getD, List.getElem?_eq_getElem hlt]
    simp

/-- C12: with the random source read as twelve reals `random 0 .. random 11` in
`[0, 1)`, `generateTrackingNumber` returns a string of length 12 whose characters
all lie in `[A-Z0-9]`, character `i` being the one at index `floor(random i * 36)`
of the alphabet, an index within `0..35`; and every string of length 12 over
`[A-Z0-9]` is returned for some such sequence. -/
theorem generateTrackingNumber_spec :
    (∀ random : ℕ → ℝ, (∀ i < 12, 0 ≤ random i ∧ random i < 1) →
      (generateTrackingNumber random).length = 12 ∧
      (∀ c ∈ (generateTrackingNumber random).data, isTrackingChar c) ∧
      ∀ i < 12, 0 ≤ ⌊random i * 36⌋ ∧ ⌊random i * 36⌋ < 36 ∧
        (generateTrackingNumber random).data[i]? = chars.data[⌊random i * 36⌋.toNat]?) ∧
    (∀ s : String, s.length = 12 → (∀ c ∈ s.data, isTrackingChar c) →
      ∃ random : ℕ → ℝ, (∀ i < 12, 0 ≤ random i ∧ random i < 1) ∧
        generateTrackingNumber random = s) := by
  have h36 : ((chars.length : ℕ) : ℝ) = 36 := by rw [chars_length]; norm_num
  constructor
  · intro random h
    have hdata := generateTrackingNumber_data random h
    have hidx : ∀ i < 12, 0 ≤ ⌊random i * 36⌋ ∧ ⌊random i * 36⌋ < 36 := by
      intro i hi
      have := floor_index_bounds (random i) (h i hi).1 (h i hi).2
      rwa [h36] at this
    refine ⟨?_, ?_, ?_⟩
    · rw [String.length, hdata]; simp
    · intro c hc
      rw [hdata, List.mem_map] at hc
      obtain ⟨i, hi, rfl⟩ := hc
      have hi2 : i < 12 := List.mem_range.mp hi
      apply isTrackingChar_of_mem_chars
      rw [h36]
      have hlt : ⌊random i * 36⌋.toNat < chars.data.length := by
        rw [chars_data_length]; have := hidx i hi2; omega
      rw [List.getD_eq_getElem?_getD, List.getElem?_eq_getElem hlt]
      exact List.getElem_mem _
    · intro i hi
      refine ⟨(hidx i hi).1, (hidx i hi).2, ?_⟩
      have hlt : ⌊random i * 36⌋.toNat < chars.data.length := by
        rw [chars_data_length]; have := hidx i hi; omega
      rw [hdata, List.getElem?_map, List.getElem?_range hi, h36]
      simp only [Option.map_some']
      rw [List.getD_eq_getElem?_getD, List.getElem?_eq_getElem hlt]
      simp
  · intro s hlen hs
    have hlen2 : s.data.length = 12 := hlen
    have hrand : ∀ i < 12, 0 ≤ randomFor ℝ (s.data.getD i 'A') ∧
        randomFor ℝ (s.data.getD i 'A') < 1 ∧
        chars.data.getD ⌊randomFor ℝ (s.data.getD i 'A') * (chars.length : ℝ)⌋.toNat 'A'
          = s.data.getD i 'A' := by
      intro i hi
      have hmem : s.data.getD i 'A' ∈ s.data := by
        rw [List.getD_eq_getElem?_getD, List.getElem?_eq_getElem (by omega)]
        exact List.getElem_mem _
      exact randomFor_spec _ (mem_chars_of_isTrackingChar _ (hs _ hmem))
    refine ⟨fun i => randomFor ℝ (s.data.getD i 'A'),
      fun i hi => ⟨(hrand i hi).1, (hrand i hi).2.1⟩, ?_⟩
    have hdata := generateTrackingNumber_data (fun i => randomFor ℝ (s.data.getD i 'A'))
      (fun i hi => ⟨(hrand i hi).1, (hrand i hi).2.1⟩)
    apply String.ext
    rw [hdata]
    apply List.ext_getElem?
    intro i
    by_cases hi : i < 12
    · rw [List.getElem?_map, List.getElem?_range hi]
      simp only [Option.map_some']
      rw [(hrand i hi).2.2, List.getD_eq_getElem?_getD, List.getElem?_eq_getElem (by omega)]
      simp
    · rw [List.getElem?_eq_none (by simp; omega), List.getElem?_eq_none (by omega)]

/-- Witness of `generateTrackingNumber_spec`: the constant sequence `0`, and the
code `TRACK1234567`. -/
theorem generateTrackingNumber_spec_witness :
    ((generateTrackingNumber (fun _ => (0 : ℝ))).length = 12 ∧
      (∀ c ∈ (generateTrackingNumber (fun _ => (0 : ℝ))).data, isTrackingChar c) ∧
      ∀ i < 12, 0 ≤ ⌊(0 : ℝ) * 36⌋ ∧ ⌊(0 : ℝ) * 36⌋ < 36 ∧
        (generateTrackingNumber (fun _ => (0 : ℝ))).data[i]?
          = chars.data[⌊(0 : ℝ) * 36⌋.toNat]?) ∧
    ∃ random : ℕ → ℝ, (∀ i < 12, 0 ≤ random i ∧ random i < 1) ∧
      generateTrackingNumber random = "TRACK1234567" :=
  ⟨generateTrackingNumber_spec.1 (fun _ => 0) (fun _ _ => ⟨le_refl 0, zero_lt_one⟩),
    generateTrackingNumber_spec.2 "TRACK1234567" (by decide) (by decide)⟩

end CourierService
